import Mathlib

/-!
Verification development for a server-authoritative multiplayer snake game.

The definitions below are a shallow embedding of the server in
`src/pages/api/socket.ts` (together with the data model in
`src/types/game.ts`).  JavaScript objects keyed by player id are modelled
as insertion-ordered association lists (a `List Player` whose elements
carry their key in the `id` field); `Object.values` is then the list
itself, keyed assignment is an in-place map (or an append for a fresh
key), and `delete` is a filter.  `Math.random()` is modelled as a stream
`Nat → ℚ` of samples together with a cursor into the stream; every
function that draws randomness takes the stream and a cursor and returns
the advanced cursor.  Timers (`setInterval`/`clearInterval` handles keyed
by room id) are modelled as the list of room ids that currently own a
running interval.
-/

set_option linter.unusedVariables false

/-- `Position` from `src/types/game.ts`: an integer pair on the grid. -/
structure Position where
  x : Int
  y : Int
deriving DecidableEq, Repr

/-- `Direction` from `src/types/game.ts`. -/
inductive Direction where
  | UP
  | DOWN
  | LEFT
  | RIGHT
deriving DecidableEq, Repr

/-- `Player` from `src/types/game.ts`. -/
structure Player where
  id : String
  name : String
  snake : List Position
  direction : Direction
  score : Nat
  color : String
  alive : Bool
deriving DecidableEq, Repr

/-- `GameState` from `src/types/game.ts`; the players mapping is an
insertion-ordered association list keyed by `Player.id`. -/
structure GameState where
  players : List Player
  food : List Position
  gameStarted : Bool
  gameOver : Bool
  winner : Option String
  roomId : String
deriving DecidableEq, Repr

/-- `Room` from `src/types/game.ts` (the creation timestamp is omitted:
nothing in the server reads it). -/
structure Room where
  id : String
  players : List String
  maxPlayers : Nat
  gameState : GameState
deriving DecidableEq, Repr

def BOARD_WIDTH : Int := 30

def BOARD_HEIGHT : Int := 20

def color0 : String := "#4ade80"

def color1 : String := "#3b82f6"

def color2 : String := "#f59e0b"

def color3 : String := "#ef4444"

def PLAYER_COLORS : List String := [color0, color1, color2, color3]

/-- The four hardcoded start positions used by `createPlayer` and the
`start-game` handler. -/
def startPositions : List Position :=
  [⟨5, 10⟩, ⟨25, 10⟩, ⟨15, 5⟩, ⟨15, 15⟩]

/-- `createInitialGameState` from `socket.ts`. -/
def createInitialGameState (roomId : String) : GameState :=
  { players := [], food := [], gameStarted := false, gameOver := false,
    winner := none, roomId := roomId }

/-- `isPositionOccupied` from `socket.ts`: the position collides with some
snake segment of some player, or with an existing food item. -/
def isPositionOccupied (pos : Position) (gs : GameState) : Bool :=
  gs.players.any (fun pl => pl.snake.any (fun seg => decide (seg = pos))) ||
    gs.food.any (fun fd => decide (fd = pos))

/-- One sample of `generateFood`'s loop body: `Math.floor(Math.random() * W)`
paired with `Math.floor(Math.random() * H)`, drawing the stream entries at
the cursor and at the cursor plus one. -/
def sampleAt (f : Nat → ℚ) (i : Nat) : Position :=
  ⟨⌊f i * 30⌋, ⌊f (i + 1) * 20⌋⟩

/-- The do/while loop of `generateFood`: keep sampling while fewer than 100
attempts have been made and the sample is occupied.  Returns the accepted
(or final) sample together with the advanced stream cursor. -/
def generateFoodLoop (f : Nat → ℚ) (gs : GameState) (i attempts : Nat) :
    Position × Nat :=
  let food := sampleAt f i
  if h : attempts + 1 < 100 ∧ isPositionOccupied food gs = true then
    generateFoodLoop f gs (i + 2) (attempts + 1)
  else
    (food, i + 2)
termination_by 100 - attempts
decreasing_by omega

/-- `generateFood` from `socket.ts`. -/
def generateFood (f : Nat → ℚ) (gs : GameState) (i : Nat) : Position × Nat :=
  generateFoodLoop f gs i 0

/-- `createPlayer` from `socket.ts`. -/
def createPlayer (id name : String) (colorIndex : Nat) : Player :=
  { id := id, name := name,
    snake := [startPositions.getD (colorIndex % startPositions.length) ⟨0, 0⟩],
    direction := Direction.RIGHT, score := 0,
    color := PLAYER_COLORS.getD (colorIndex % PLAYER_COLORS.length) "",
    alive := true }

/-- The head offset computed by `moveSnake` (`{...player.snake[0]}` moved one
cell in the current direction). -/
def nextHead (p : Player) : Position :=
  let head := p.snake.headD ⟨0, 0⟩
  match p.direction with
  | Direction.UP => { head with y := head.y - 1 }
  | Direction.DOWN => { head with y := head.y + 1 }
  | Direction.LEFT => { head with x := head.x - 1 }
  | Direction.RIGHT => { head with x := head.x + 1 }

/-- `moveSnake` from `socket.ts`: prepend the offset head (`unshift`). -/
def moveSnake (p : Player) : Player :=
  { p with snake := nextHead p :: p.snake }

/-- The wall test of `checkCollisions`. -/
def hitsWall (head : Position) : Bool :=
  decide (head.x < 0) || decide (BOARD_WIDTH ≤ head.x) ||
    decide (head.y < 0) || decide (BOARD_HEIGHT ≤ head.y)

/-- The self-collision test of `checkCollisions` (`snake.slice(1)`). -/
def hitsSelf (p : Player) (head : Position) : Bool :=
  p.snake.tail.any (fun seg => decide (seg = head))

/-- The other-snake test of `checkCollisions`, against the snapshot of the
players that were alive when `checkCollisions` was entered. -/
def hitsOther (alive0 : List Player) (p : Player) (head : Position) : Bool :=
  alive0.any (fun q => !(q.id == p.id) && q.snake.any (fun seg => decide (seg = head)))

/-- The loop body of `checkCollisions` for one (alive) player, against the
entry snapshot of alive players. -/
def collideOne (alive0 : List Player) (p : Player) : Player :=
  if p.alive then
    let head := p.snake.headD ⟨0, 0⟩
    if hitsWall head || hitsSelf p head || hitsOther alive0 p head then
      { p with alive := false }
    else p
  else p

/-- `checkCollisions` from `socket.ts`.  The source iterates over the
snapshot `alivePlayers` and flips each victim's `alive` flag in place; the
loop body reads only snakes and ids (never the mutating `alive` flags), so
the in-place sweep is exactly a map over the players with the entry
snapshot fixed. -/
def checkCollisions (gs : GameState) : GameState :=
  let alive0 := gs.players.filter (fun p => p.alive)
  { gs with players := gs.players.map (collideOne alive0) }

/-- Keyed in-place assignment `players[id] = newP` for an id that is already
present: replace the entries carrying that id, preserving order. -/
def updatePlayerById (ps : List Player) (tid : String) (newP : Player) :
    List Player :=
  ps.map (fun q => if q.id == tid then newP else q)

/-- Keyed lookup in an insertion-ordered association list: the JavaScript
`obj[key]` read. -/
def findKey {α : Type} (key : α → String) (k : String) : List α → Option α
  | [] => none
  | a :: t => if key a == k then some a else findKey key k t

/-- Lookup `gameState.players[id]`. -/
def getPlayer (gs : GameState) (pid : String) : Option Player :=
  findKey Player.id pid gs.players

/-- One iteration of `checkFoodCollision`'s loop, processing the player with
the given id against the current state (the source iterates over the
`Object.values` snapshot, whose elements are live references, so each
iteration reads the current state). -/
def feedOne (f : Nat → ℚ) (st : GameState × Nat) (pid : String) :
    GameState × Nat :=
  let gs := st.1
  match getPlayer gs pid with
  | none => st
  | some p =>
    if p.alive then
      let head := p.snake.headD ⟨0, 0⟩
      match gs.food.findIdx? (fun fd => decide (fd = head)) with
      | some j =>
        let scored := { p with score := p.score + 10 }
        let gs1 := { gs with food := gs.food.eraseIdx j,
                             players := updatePlayerById gs.players pid scored }
        let r := generateFood f gs1 st.2
        ({ gs1 with food := gs1.food ++ [r.1] }, r.2)
      | none =>
        let popped := { p with snake := p.snake.dropLast }
        ({ gs with players := updatePlayerById gs.players pid popped }, st.2)
    else st

/-- `checkFoodCollision` from `socket.ts`: fold `feedOne` over the snapshot
of player ids taken at entry. -/
def checkFoodCollision (f : Nat → ℚ) (gs : GameState) (i : Nat) :
    GameState × Nat :=
  (gs.players.map (fun p => p.id)).foldl (feedOne f) (gs, i)

/-- The movement phase of `updateGame`: `moveSnake` every alive player. -/
def movePhase (gs : GameState) : GameState :=
  { gs with players := gs.players.map (fun p => if p.alive then moveSnake p else p) }

/-- The simulation steps of `updateGame` from `socket.ts`: move every alive
player, run `checkCollisions` and `checkFoodCollision`, then apply the win
condition (at most one player left alive ends the game, the sole survivor
if any becomes the winner). -/
def tick (f : Nat → ℚ) (gs : GameState) (i : Nat) : GameState × Nat :=
  let gs1 := movePhase gs
  let gs2 := checkCollisions gs1
  let r := checkFoodCollision f gs2 i
  let gs3 := r.1
  let alive := gs3.players.filter (fun p => p.alive)
  if alive.length ≤ 1 then
    let w := match alive with
      | [q] => some q.id
      | _ => gs3.winner
    ({ gs3 with gameOver := true, gameStarted := false, winner := w }, r.2)
  else
    (gs3, r.2)

/-- The seeding loop `for (let i = 0; i < 3; i++) food.push(generateFood(...))`
(each generated item is visible to the following draws). -/
def seedFood (f : Nat → ℚ) (gs : GameState) (i : Nat) : Nat → GameState × Nat
  | 0 => (gs, i)
  | Nat.succ n =>
    let r := generateFood f gs i
    seedFood f { gs with food := gs.food ++ [r.1] } r.2 n

/-- Outbound emissions of a handler that matter to the claims: private error
messages, the private join acknowledgment, and room broadcasts. -/
inductive OutMsg where
  | errorTo (conn msg : String)
  | playerJoined (conn : String)
  | gameStateTo (roomId : String)
deriving DecidableEq, Repr

def msgNeedInput : String := "Room ID and player name are required"

def msgRoomFull : String := "Room is full"

def msgRoomNotFound : String := "Room not found"

def msgNeedTwo : String := "Need at least 2 players to start"

/-- The whole server: the `rooms` registry, the `gameIntervals` registry
(as the list of room ids owning a running interval), and each connection's
socket.io room memberships in join order (`socket.rooms` minus the
connection's own id). -/
structure ServerState where
  rooms : List Room
  timers : List String
  connRooms : List (String × List String)
deriving DecidableEq, Repr

def initialServer : ServerState :=
  { rooms := [], timers := [], connRooms := [] }

/-- Lookup `rooms[roomId]`. -/
def lookupRoom (rl : List Room) (rid : String) : Option Room :=
  findKey Room.id rid rl

/-- Keyed in-place assignment `rooms[roomId] = room1` for an existing id. -/
def setRoom (rl : List Room) (rid : String) (room1 : Room) : List Room :=
  rl.map (fun r => if r.id == rid then room1 else r)

/-- `Array.from(socket.rooms).find(room => room !== socket.id)`: the first
room the connection joined. -/
def currentRoom (s : ServerState) (conn : String) : Option String :=
  match findKey Prod.fst conn s.connRooms with
  | some e => e.2.head?
  | none => none

/-- `socket.join(roomId)`. -/
def connJoin (l : List (String × List String)) (conn rid : String) :
    List (String × List String) :=
  if l.any (fun e => e.1 == conn) then
    l.map (fun e => if e.1 == conn then (e.1, e.2 ++ [rid]) else e)
  else
    l ++ [(conn, [rid])]

/-- `socket.leave(roomId)`. -/
def connLeave (l : List (String × List String)) (conn rid : String) :
    List (String × List String) :=
  l.map (fun e => if e.1 == conn then (e.1, e.2.erase rid) else e)

/-- Keyed assignment `gameState.players[id] = p`: overwrite in place when the
id is present, append otherwise. -/
def setPlayerEntry (ps : List Player) (p : Player) : List Player :=
  if ps.any (fun q => q.id == p.id) then updatePlayerById ps p.id p
  else ps ++ [p]

/-- The common tail of both join-room revisions once the room is known and
admission is granted: join the socket to the room, append to membership,
create and store the player, seed 3 food items if the food list is empty. -/
def admitPlayer (f : Nat → ℚ) (s : ServerState) (conn rid name : String)
    (room : Room) (i : Nat) : ServerState × List OutMsg × Nat :=
  let s2 := { s with connRooms := connJoin s.connRooms conn rid }
  let members := room.players ++ [conn]
  let player := createPlayer conn name (members.length - 1)
  let gs1 := { room.gameState with players := setPlayerEntry room.gameState.players player }
  let r := if gs1.food.length == 0 then seedFood f gs1 i 3 else (gs1, i)
  let room1 := { room with players := members, gameState := r.1 }
  ({ s2 with rooms := setRoom s2.rooms rid room1 },
   [OutMsg.playerJoined conn, OutMsg.gameStateTo rid], r.2)

/-- `rooms[roomId]` creation on first join (`if (!rooms[roomId]) rooms[roomId] = {...}`). -/
def ensureRoom (rl : List Room) (rid : String) : List Room :=
  if rl.any (fun r => r.id == rid) then rl
  else rl ++ [{ id := rid, players := [], maxPlayers := 4,
                gameState := createInitialGameState rid }]

/-- The `join-room` handler of the first revision of `socket.ts`
(lines 283-345): validates the inputs, creates the room if needed, answers
an idempotent re-join without touching the room, rejects on capacity, and
otherwise admits the player. -/
def joinRoom1 (f : Nat → ℚ) (s : ServerState) (conn rid name : String)
    (i : Nat) : ServerState × List OutMsg × Nat :=
  if rid = "" ∨ name = "" then
    (s, [OutMsg.errorTo conn msgNeedInput], i)
  else
    let s1 := { s with rooms := ensureRoom s.rooms rid }
    match lookupRoom s1.rooms rid with
    | none => (s1, [], i)
    | some room =>
      if conn ∈ room.players then
        (s1, [OutMsg.playerJoined conn, OutMsg.gameStateTo rid], i)
      else if room.maxPlayers ≤ room.players.length then
        (s1, [OutMsg.errorTo conn msgRoomFull], i)
      else
        admitPlayer f s1 conn rid name room i

/-- The `join-room` handler of the second revision of `socket.ts`
(lines 730-769): no input validation and no membership check before the
capacity test. -/
def joinRoom2 (f : Nat → ℚ) (s : ServerState) (conn rid name : String)
    (i : Nat) : ServerState × List OutMsg × Nat :=
  let s1 := { s with rooms := ensureRoom s.rooms rid }
  match lookupRoom s1.rooms rid with
  | none => (s1, [], i)
  | some room =>
    if room.maxPlayers ≤ room.players.length then
      (s1, [OutMsg.errorTo conn msgRoomFull], i)
    else
      admitPlayer f s1 conn rid name room i

/-- The per-player reset of the `start-game` handler, keyed by the player's
index in the current iteration order. -/
def resetPlayer (idx : Nat) (p : Player) : Player :=
  { p with snake := [startPositions.getD (idx % startPositions.length) ⟨0, 0⟩],
           direction := Direction.RIGHT, score := 0, alive := true }

/-- The state rebuild performed by `start-game`: set the flags, reset every
player by its index in the current iteration order, clear the food list and
reseed it with 3 generated items. -/
def resetStartState (f : Nat → ℚ) (gs : GameState) (i : Nat) :
    GameState × Nat :=
  let gs0 := { gs with gameStarted := true, gameOver := false, winner := none }
  let gs1 :=
    { gs0 with players := gs0.players.enum.map (fun e : Nat × Player => resetPlayer e.1 e.2) }
  seedFood f { gs1 with food := [] } i 3

/-- The `start-game` handler of `socket.ts` (lines 348-398), with
`startGameLoop` folded in as the timer-registry update (clear any existing
interval for the room, then register the new one). -/
def startGame (f : Nat → ℚ) (s : ServerState) (conn : String) (i : Nat) :
    ServerState × List OutMsg × Nat :=
  match currentRoom s conn with
  | none => (s, [OutMsg.errorTo conn msgRoomNotFound], i)
  | some rid =>
    match lookupRoom s.rooms rid with
    | none => (s, [OutMsg.errorTo conn msgRoomNotFound], i)
    | some room =>
      if room.gameState.players.length < 2 then
        (s, [OutMsg.errorTo conn msgNeedTwo], i)
      else
        let r := resetStartState f room.gameState i
        let room1 := { room with gameState := r.1 }
        ({ s with rooms := setRoom s.rooms rid room1,
                  timers := rid :: s.timers.erase rid },
         [OutMsg.gameStateTo rid], r.2)

/-- The direction each `Direction` is the opposite of (`opposites` in the
`change-direction` handler). -/
def opposite : Direction → Direction
  | Direction.UP => Direction.DOWN
  | Direction.DOWN => Direction.UP
  | Direction.LEFT => Direction.RIGHT
  | Direction.RIGHT => Direction.LEFT

/-- The `change-direction` handler of `socket.ts` (lines 401-422). -/
def changeDirection (s : ServerState) (conn : String) (d : Direction) :
    ServerState :=
  match currentRoom s conn with
  | none => s
  | some rid =>
    match lookupRoom s.rooms rid with
    | none => s
    | some room =>
      match getPlayer room.gameState conn with
      | none => s
      | some p =>
        if p.alive then
          if opposite d ≠ p.direction then
            let turned := { p with direction := d }
            let gs1 := { room.gameState with
              players := updatePlayerById room.gameState.players conn turned }
            { s with rooms := setRoom s.rooms rid { room with gameState := gs1 } }
          else s
        else s

/-- The room-removal tail shared by `leave-room` and `disconnect`: drop the
connection from membership and from the players mapping; tear the room and
its interval down when the membership becomes empty. -/
def removeFromRoom (s : ServerState) (conn rid : String) (room : Room) :
    ServerState :=
  let members := room.players.filter (fun x => !(x == conn))
  let gs := { room.gameState with
    players := room.gameState.players.filter (fun p => !(p.id == conn)) }
  if members.length = 0 then
    { s with rooms := s.rooms.filter (fun r => !(r.id == rid)),
             timers := s.timers.erase rid }
  else
    { s with rooms := setRoom s.rooms rid { room with players := members, gameState := gs } }

/-- The `leave-room` handler of `socket.ts` (lines 425-448). -/
def leaveRoom (s : ServerState) (conn : String) : ServerState :=
  match currentRoom s conn with
  | none => s
  | some rid =>
    match lookupRoom s.rooms rid with
    | none => s
    | some room =>
      let s1 := removeFromRoom s conn rid room
      { s1 with connRooms := connLeave s1.connRooms conn rid }

/-- The `disconnect` handler of `socket.ts` (lines 451-475); the connection's
socket-room memberships disappear with the socket. -/
def disconnect (s : ServerState) (conn : String) : ServerState :=
  match currentRoom s conn with
  | none => { s with connRooms := s.connRooms.filter (fun e => !(e.1 == conn)) }
  | some rid =>
    match lookupRoom s.rooms rid with
    | none => { s with connRooms := s.connRooms.filter (fun e => !(e.1 == conn)) }
    | some room =>
      let s1 := removeFromRoom s conn rid room
      { s1 with connRooms := s1.connRooms.filter (fun e => !(e.1 == conn)) }

/-- `updateGame` from `socket.ts` (lines 158-197) as one interval firing for
a room: a no-op unless the room exists, the game is started and not over;
otherwise run the simulation steps and, when the win condition fired (the
alive set is untouched by the win branch, so it is recomputed on the tick
result), clear the room's interval. -/
def updateGame (f : Nat → ℚ) (s : ServerState) (rid : String) (i : Nat) :
    ServerState × Nat :=
  match lookupRoom s.rooms rid with
  | none => (s, i)
  | some room =>
    if room.gameState.gameStarted && !room.gameState.gameOver then
      let r := tick f room.gameState i
      let timers1 :=
        if (r.1.players.filter (fun p => p.alive)).length ≤ 1 then
          s.timers.erase rid
        else s.timers
      ({ s with rooms := setRoom s.rooms rid { room with gameState := r.1 },
                timers := timers1 }, r.2)
    else (s, i)

/-- The server states reachable from the empty registry by any interleaving
of inbound events (first-revision handlers) and interval firings. -/
inductive Reachable : ServerState → Prop where
  | init : Reachable initialServer
  | join (f : Nat → ℚ) (conn rid name : String) (i : Nat) (s : ServerState) :
      Reachable s → Reachable (joinRoom1 f s conn rid name i).1
  | start (f : Nat → ℚ) (conn : String) (i : Nat) (s : ServerState) :
      Reachable s → Reachable (startGame f s conn i).1
  | dir (conn : String) (d : Direction) (s : ServerState) :
      Reachable s → Reachable (changeDirection s conn d)
  | leave (conn : String) (s : ServerState) :
      Reachable s → Reachable (leaveRoom s conn)
  | disc (conn : String) (s : ServerState) :
      Reachable s → Reachable (disconnect s conn)
  | step (f : Nat → ℚ) (rid : String) (i : Nat) (s : ServerState) :
      Reachable s → Reachable (updateGame f s rid i).1

/-- No room in the list is simultaneously started and over. -/
def roomsOk (rl : List Room) : Bool :=
  rl.all (fun r => !(r.gameState.gameStarted && r.gameState.gameOver))

/-- The claimed mutual-exclusion invariant: no room is simultaneously
started and over. -/
def flagsOk (s : ServerState) : Bool :=
  roomsOk s.rooms

/-! Concrete states used by the closed witness and counterexample theorems. -/

/-- A fixed randomness stream for concrete runs. -/
def zeroStream : Nat → ℚ := fun _ => 0

def pA2 : Player :=
  { id := "A", name := "Ann", snake := [⟨5, 5⟩, ⟨5, 6⟩],
    direction := Direction.LEFT, score := 0, color := color0, alive := true }

def pB2 : Player :=
  { id := "B", name := "Bob", snake := [⟨4, 5⟩, ⟨5, 5⟩],
    direction := Direction.UP, score := 10, color := color1, alive := true }

def gsC2 : GameState :=
  { players := [pA2, pB2], food := [], gameStarted := true, gameOver := false,
    winner := none, roomId := "r" }

def pA3 : Player :=
  { id := "A", name := "Ann", snake := [⟨5, 5⟩],
    direction := Direction.RIGHT, score := 0, color := color0, alive := true }

def pB3 : Player :=
  { id := "B", name := "Bob", snake := [⟨10, 10⟩],
    direction := Direction.RIGHT, score := 0, color := color1, alive := true }

def gsC3 : GameState :=
  { players := [pA3, pB3], food := [⟨20, 20⟩, ⟨21, 20⟩, ⟨22, 20⟩],
    gameStarted := true, gameOver := false, winner := none, roomId := "r" }

def pA10 : Player :=
  { id := "A", name := "Ann", snake := [⟨0, 5⟩],
    direction := Direction.LEFT, score := 0, color := color0, alive := true }

def gsC10 : GameState :=
  { players := [pA10, pB3], food := [⟨20, 20⟩, ⟨21, 20⟩, ⟨22, 20⟩],
    gameStarted := true, gameOver := false, winner := none, roomId := "r" }

def roomC1 : Room :=
  { id := "r", players := ["A", "B"], maxPlayers := 4, gameState := gsC10 }

def sC1 : ServerState :=
  { rooms := [roomC1], timers := ["r"], connRooms := [("A", ["r"]), ("B", ["r"])] }

def gsC4 : GameState :=
  { players := [pA3], food := [⟨0, 0⟩], gameStarted := false, gameOver := false,
    winner := none, roomId := "r" }

def roomC4 : Room :=
  { id := "r", players := ["A"], maxPlayers := 4, gameState := gsC4 }

def sC4 : ServerState :=
  { rooms := [roomC4], timers := [], connRooms := [("A", ["r"])] }

def gsC5 : GameState :=
  { players := [pA3, pB3], food := [⟨20, 20⟩], gameStarted := false,
    gameOver := false, winner := none, roomId := "r" }

def roomC5 : Room :=
  { id := "r", players := ["A", "B"], maxPlayers := 4, gameState := gsC5 }

def sC5 : ServerState :=
  { rooms := [roomC5], timers := [], connRooms := [("A", ["r"]), ("B", ["r"])] }

def playersC8 : List Player :=
  [createPlayer "A" "a" 0, createPlayer "B" "b" 1,
   createPlayer "C" "c" 2, createPlayer "D" "d" 3]

def gsC8 : GameState :=
  { players := playersC8, food := [⟨0, 0⟩, ⟨1, 0⟩, ⟨2, 0⟩],
    gameStarted := false, gameOver := false, winner := none, roomId := "r" }

def roomC8 : Room :=
  { id := "r", players := ["A", "B", "C", "D"], maxPlayers := 4,
    gameState := gsC8 }

def sC8 : ServerState :=
  { rooms := [roomC8], timers := [],
    connRooms := [("A", ["r"]), ("B", ["r"]), ("C", ["r"]), ("D", ["r"])] }

def sC9 : ServerState :=
  { rooms := [roomC5], timers := [], connRooms := [("A", ["r"]), ("B", ["r"])] }

/-- The expected post-tick record of player A in `gsC3`. -/
def qA3 : Player :=
  { id := "A", name := "Ann", snake := [⟨6, 5⟩],
    direction := Direction.RIGHT, score := 0, color := color0, alive := true }

/-- The expected post-tick record of player A in `gsC10`. -/
def qA10 : Player :=
  { id := "A", name := "Ann", snake := [⟨-1, 5⟩, ⟨0, 5⟩],
    direction := Direction.LEFT, score := 0, color := color0, alive := false }

def ridC6 : String := "r"

/-- An empty board used to exercise `generateFood` concretely. -/
def gsC6 : GameState := createInitialGameState ridC6

def connA : String := "A"

def connE : String := "E"

def nameEve : String := "Eve"

def ridR : String := "r"

/-- The server state produced by a successful direction change: the one
player's direction replaced, everything else untouched. -/
def directionUpdated (s : ServerState) (rid : String) (room : Room)
    (conn : String) (p : Player) (d : Direction) : ServerState :=
  let turned := { p with direction := d }
  let gs1 :=
    { room.gameState with players := updatePlayerById room.gameState.players conn turned }
  { s with rooms := setRoom s.rooms rid { room with gameState := gs1 } }

section ListLemmas

variable {α : Type}

/-- Keyed overwrite: looking the key up after the overwrite yields the new
value exactly when the key was present. -/
theorem findKey_update_self (key : α → String) (l : List α) (k : String)
    (nw : α) (hk : key nw = k) :
    findKey key k (l.map fun x => if key x == k then nw else x) =
      (findKey key k l).map (fun _ => nw) := by
  induction l with
  | nil => rfl
  | cons a t ih =>
    by_cases h : (key a == k) = true
    · have h1 : (key nw == k) = true := by simp [hk]
      rw [List.map_cons, if_pos h, findKey, if_pos h1, findKey, if_pos h]
      rfl
    · rw [List.map_cons, if_neg h, findKey, if_neg h, findKey, if_neg h]
      exact ih

/-- Keyed overwrite leaves lookups of other keys unchanged. -/
theorem findKey_update_ne (key : α → String) (l : List α) (k k2 : String)
    (nw : α) (hk : key nw = k) (hne : k ≠ k2) :
    findKey key k2 (l.map fun x => if key x == k then nw else x) =
      findKey key k2 l := by
  induction l with
  | nil => rfl
  | cons a t ih =>
    by_cases h : (key a == k) = true
    · have hka : key a = k := by simpa using h
      have h2 : ¬((key a == k2) = true) := by
        simp [hka]
        exact hne
      have h3 : ¬((key nw == k2) = true) := by
        simp [hk]
        exact hne
      rw [List.map_cons, if_pos h, findKey, if_neg h3, findKey, if_neg h2]
      exact ih
    · rw [List.map_cons, if_neg h, findKey, findKey]
      by_cases h4 : (key a == k2) = true
      · rw [if_pos h4, if_pos h4]
      · rw [if_neg h4, if_neg h4]
        exact ih

/-- Mapping a key-preserving function commutes with keyed lookup. -/
theorem findKey_map_key (key : α → String) (g : α → α)
    (hg : ∀ x, key (g x) = key x) (l : List α) (k : String) :
    findKey key k (l.map g) = (findKey key k l).map g := by
  induction l with
  | nil => rfl
  | cons a t ih =>
    rw [List.map_cons, findKey, findKey, hg]
    by_cases h : (key a == k) = true
    · rw [if_pos h, if_pos h]
      rfl
    · rw [if_neg h, if_neg h]
      exact ih

/-- Looking up the key of a member of a list with pairwise-distinct keys
finds that member. -/
theorem findKey_of_mem_nodup (key : α → String) (l : List α) (x : α)
    (hnd : (l.map key).Nodup) (hx : x ∈ l) :
    findKey key (key x) l = some x := by
  induction l with
  | nil => cases hx
  | cons a t ih =>
    rw [List.map_cons] at hnd
    have hnd2 := List.nodup_cons.mp hnd
    rcases List.mem_cons.mp hx with rfl | hx2
    · rw [findKey, if_pos (by simp)]
    · have hkx : key x ∈ t.map key := List.mem_map_of_mem key hx2
      have hne2 : ¬((key a == key x) = true) := by
        simp only [beq_iff_eq]
        intro hh
        exact hnd2.1 (hh ▸ hkx)
      rw [findKey, if_neg hne2]
      exact ih hnd2.2 hx2

/-- A keyed lookup that succeeds found an element of the list carrying the
looked-up key. -/
theorem findKey_eq_some (key : α → String) (l : List α) (k : String) (x : α)
    (h : findKey key k l = some x) : x ∈ l ∧ key x = k := by
  induction l with
  | nil => cases h
  | cons a t ih =>
    rw [findKey] at h
    by_cases h1 : (key a == k) = true
    · rw [if_pos h1] at h
      injection h with h2
      subst h2
      exact ⟨List.mem_cons_self a t, by simpa using h1⟩
    · rw [if_neg h1] at h
      have := ih h
      exact ⟨List.mem_cons_of_mem a this.1, this.2⟩

/-- Keyed lookup over an append scans the left list first. -/
theorem findKey_append (key : α → String) (l1 l2 : List α) (k : String) :
    findKey key k (l1 ++ l2) =
      (findKey key k l1).or (findKey key k l2) := by
  induction l1 with
  | nil => rfl
  | cons a t ih =>
    rw [List.cons_append, findKey, findKey]
    by_cases h : (key a == k) = true
    · rw [if_pos h, if_pos h]
      rfl
    · rw [if_neg h, if_neg h]
      exact ih

/-- A keyed lookup fails exactly when no element carries the key. -/
theorem findKey_eq_none (key : α → String) (l : List α) (k : String)
    (h : ∀ x ∈ l, key x ≠ k) : findKey key k l = none := by
  induction l with
  | nil => rfl
  | cons a t ih =>
    have h1 : ¬((key a == k) = true) := by
      simp only [beq_iff_eq]
      exact h a (List.mem_cons_self a t)
    rw [findKey, if_neg h1]
    exact ih (fun x hx => h x (List.mem_cons_of_mem a hx))

/-- Keyed overwrite preserves the list of keys. -/
theorem map_key_update (key : α → String) (l : List α) (k : String) (nw : α)
    (hk : key nw = k) :
    (l.map fun x => if key x == k then nw else x).map key = l.map key := by
  induction l with
  | nil => rfl
  | cons a t ih =>
    by_cases h : (key a == k) = true
    · have hka : key a = k := by simpa using h
      rw [List.map_cons, if_pos h, List.map_cons, List.map_cons, ih, hk, hka]
    · rw [List.map_cons, if_neg h, List.map_cons, List.map_cons, ih]

/-- Mapping a key-preserving function preserves the list of keys. -/
theorem map_key_of (key : α → String) (g : α → α)
    (hg : ∀ x, key (g x) = key x) (l : List α) :
    (l.map g).map key = l.map key := by
  induction l with
  | nil => rfl
  | cons a t ih =>
    rw [List.map_cons, List.map_cons, List.map_cons, ih, hg]

/-- Entrywise description of `List.enumFrom`. -/
theorem get?_enumFrom (n : Nat) (l : List α) (i : Nat) :
    (List.enumFrom n l).get? i = (l.get? i).map (fun a => (n + i, a)) := by
  induction l generalizing n i with
  | nil => simp [List.enumFrom]
  | cons a t ih =>
    cases i with
    | zero => simp [List.enumFrom]
    | succ m =>
      simp only [List.enumFrom, List.get?]
      rw [ih]
      cases t.get? m with
      | none => rfl
      | some b =>
        simp only [Option.map]
        have h5 : n + 1 + m = n + (m + 1) := by omega
        rw [h5]

end ListLemmas

section RulesLemmas

theorem collideOne_of_not_alive (alive0 : List Player) (p : Player)
    (hp : p.alive = false) : collideOne alive0 p = p := by
  unfold collideOne
  rw [hp]
  rfl

theorem collideOne_alive_cases (alive0 : List Player) (p : Player)
    (hp : p.alive = true) :
    collideOne alive0 p =
      (if (hitsWall (p.snake.headD ⟨0, 0⟩) || hitsSelf p (p.snake.headD ⟨0, 0⟩) ||
          hitsOther alive0 p (p.snake.headD ⟨0, 0⟩)) = true
       then { p with alive := false } else p) := by
  unfold collideOne
  rw [if_pos hp]

theorem collideOne_id (alive0 : List Player) (p : Player) :
    (collideOne alive0 p).id = p.id := by
  by_cases hp : p.alive = true
  · rw [collideOne_alive_cases alive0 p hp]
    by_cases h2 : (hitsWall (p.snake.headD ⟨0, 0⟩) || hitsSelf p (p.snake.headD ⟨0, 0⟩) ||
        hitsOther alive0 p (p.snake.headD ⟨0, 0⟩)) = true
    · rw [if_pos h2]
    · rw [if_neg h2]
  · rw [collideOne_of_not_alive alive0 p (Bool.not_eq_true p.alive ▸ hp)]

theorem collideOne_snake (alive0 : List Player) (p : Player) :
    (collideOne alive0 p).snake = p.snake := by
  by_cases hp : p.alive = true
  · rw [collideOne_alive_cases alive0 p hp]
    by_cases h2 : (hitsWall (p.snake.headD ⟨0, 0⟩) || hitsSelf p (p.snake.headD ⟨0, 0⟩) ||
        hitsOther alive0 p (p.snake.headD ⟨0, 0⟩)) = true
    · rw [if_pos h2]
    · rw [if_neg h2]
  · rw [collideOne_of_not_alive alive0 p (Bool.not_eq_true p.alive ▸ hp)]

theorem collideOne_score (alive0 : List Player) (p : Player) :
    (collideOne alive0 p).score = p.score := by
  by_cases hp : p.alive = true
  · rw [collideOne_alive_cases alive0 p hp]
    by_cases h2 : (hitsWall (p.snake.headD ⟨0, 0⟩) || hitsSelf p (p.snake.headD ⟨0, 0⟩) ||
        hitsOther alive0 p (p.snake.headD ⟨0, 0⟩)) = true
    · rw [if_pos h2]
    · rw [if_neg h2]
  · rw [collideOne_of_not_alive alive0 p (Bool.not_eq_true p.alive ▸ hp)]

theorem collideOne_alive_iff (alive0 : List Player) (p : Player)
    (hp : p.alive = true) :
    (collideOne alive0 p).alive = true ↔
      (hitsWall (p.snake.headD ⟨0, 0⟩) = false ∧
       hitsSelf p (p.snake.headD ⟨0, 0⟩) = false ∧
       hitsOther alive0 p (p.snake.headD ⟨0, 0⟩) = false) := by
  rw [collideOne_alive_cases alive0 p hp]
  by_cases h2 : (hitsWall (p.snake.headD ⟨0, 0⟩) || hitsSelf p (p.snake.headD ⟨0, 0⟩) ||
      hitsOther alive0 p (p.snake.headD ⟨0, 0⟩)) = true
  · rw [if_pos h2]
    simp only [Bool.or_eq_true] at h2
    constructor
    · intro hfalse
      cases hfalse
    · intro hcon
      rcases h2 with (hw | hs) | ho
      · rw [hcon.1] at hw
        cases hw
      · rw [hcon.2.1] at hs
        cases hs
      · rw [hcon.2.2] at ho
        cases ho
  · rw [if_neg h2]
    simp only [Bool.or_eq_true, not_or, Bool.not_eq_true] at h2
    constructor
    · intro h3
      exact ⟨h2.1.1, h2.1.2, h2.2⟩
    · intro h3
      exact hp

theorem getPlayer_checkCollisions (gs : GameState) (pid : String) :
    getPlayer (checkCollisions gs) pid =
      (getPlayer gs pid).map (collideOne (gs.players.filter (fun p => p.alive))) := by
  unfold checkCollisions getPlayer
  exact findKey_map_key Player.id _ (fun q => collideOne_id _ q) gs.players pid

theorem getPlayer_movePhase (gs : GameState) (pid : String) :
    getPlayer (movePhase gs) pid =
      (getPlayer gs pid).map (fun p => if p.alive then moveSnake p else p) := by
  unfold movePhase getPlayer
  refine findKey_map_key Player.id _ (fun q => ?_) gs.players pid
  by_cases h : q.alive = true
  · rw [if_pos h]
    rfl
  · rw [if_neg h]

theorem getPlayer_id (gs : GameState) (pid : String) (p : Player)
    (hp : getPlayer gs pid = some p) : p.id = pid :=
  (findKey_eq_some Player.id gs.players pid p hp).2

theorem getPlayer_mem (gs : GameState) (pid : String) (p : Player)
    (hp : getPlayer gs pid = some p) : p ∈ gs.players :=
  (findKey_eq_some Player.id gs.players pid p hp).1

theorem feedOne_other (f : Nat → ℚ) (st : GameState × Nat) (pid qid : String)
    (hne : pid ≠ qid) :
    getPlayer (feedOne f st pid).1 qid = getPlayer st.1 qid := by
  simp only [feedOne]
  split
  · rfl
  · rename_i p hp
    have hpid : p.id = pid := getPlayer_id _ _ _ hp
    by_cases ha : p.alive = true
    · rw [if_pos ha]
      split
      · show findKey Player.id qid
            (updatePlayerById st.1.players pid { p with score := p.score + 10 }) =
          getPlayer st.1 qid
        unfold updatePlayerById getPlayer
        exact findKey_update_ne Player.id st.1.players pid qid _ hpid hne
      · show findKey Player.id qid
            (updatePlayerById st.1.players pid { p with snake := p.snake.dropLast }) =
          getPlayer st.1 qid
        unfold updatePlayerById getPlayer
        exact findKey_update_ne Player.id st.1.players pid qid _ hpid hne
    · rw [if_neg ha]

theorem feedOne_self (f : Nat → ℚ) (st : GameState × Nat) (pid : String)
    (p : Player) (hp : getPlayer st.1 pid = some p) :
    ∃ q, getPlayer (feedOne f st pid).1 pid = some q ∧
      ((p.alive = false ∧ q = p) ∨
       (p.alive = true ∧
         (q = { p with snake := p.snake.dropLast } ∨
          q = { p with score := p.score + 10 }))) := by
  simp only [feedOne]
  split
  · rename_i hnone
    rw [hp] at hnone
    cases hnone
  · rename_i p2 hp2
    rw [hp] at hp2
    injection hp2 with hpp
    subst hpp
    have hpid : p.id = pid := getPlayer_id _ _ _ hp
    by_cases ha : p.alive = true
    · rw [if_pos ha]
      split
      · refine ⟨{ p with score := p.score + 10 }, ?_, Or.inr ⟨ha, Or.inr rfl⟩⟩
        show findKey Player.id pid
            (updatePlayerById st.1.players pid { p with score := p.score + 10 }) =
          some { p with score := p.score + 10 }
        unfold updatePlayerById
        rw [findKey_update_self Player.id st.1.players pid
          { p with score := p.score + 10 } hpid]
        rw [show findKey Player.id pid st.1.players = some p from hp]
        rfl
      · refine ⟨{ p with snake := p.snake.dropLast }, ?_, Or.inr ⟨ha, Or.inl rfl⟩⟩
        show findKey Player.id pid
            (updatePlayerById st.1.players pid { p with snake := p.snake.dropLast }) =
          some { p with snake := p.snake.dropLast }
        unfold updatePlayerById
        rw [findKey_update_self Player.id st.1.players pid
          { p with snake := p.snake.dropLast } hpid]
        rw [show findKey Player.id pid st.1.players = some p from hp]
        rfl
    · rw [if_neg ha]
      exact ⟨p, hp, Or.inl ⟨Bool.not_eq_true p.alive ▸ ha, rfl⟩⟩

end RulesLemmas

section FoldLemmas

theorem feedOne_ids (f : Nat → ℚ) (st : GameState × Nat) (pid : String) :
    (feedOne f st pid).1.players.map Player.id = st.1.players.map Player.id := by
  simp only [feedOne]
  split
  · rfl
  · rename_i p hp
    have hpid : p.id = pid := getPlayer_id _ _ _ hp
    by_cases ha : p.alive = true
    · rw [if_pos ha]
      split
      · show (updatePlayerById st.1.players pid
            { p with score := p.score + 10 }).map Player.id = _
        unfold updatePlayerById
        exact map_key_update Player.id st.1.players pid _ hpid
      · show (updatePlayerById st.1.players pid
            { p with snake := p.snake.dropLast }).map Player.id = _
        unfold updatePlayerById
        exact map_key_update Player.id st.1.players pid _ hpid
    · rw [if_neg ha]

theorem feedOne_meta (f : Nat → ℚ) (st : GameState × Nat) (pid : String) :
    (feedOne f st pid).1.gameStarted = st.1.gameStarted ∧
    (feedOne f st pid).1.gameOver = st.1.gameOver ∧
    (feedOne f st pid).1.winner = st.1.winner := by
  simp only [feedOne]
  split
  · exact ⟨rfl, rfl, rfl⟩
  · rename_i p hp
    by_cases ha : p.alive = true
    · rw [if_pos ha]
      split
      · exact ⟨rfl, rfl, rfl⟩
      · exact ⟨rfl, rfl, rfl⟩
    · rw [if_neg ha]
      exact ⟨rfl, rfl, rfl⟩

theorem foldl_feed_other (f : Nat → ℚ) (ids : List String) :
    ∀ (st : GameState × Nat) (qid : String), qid ∉ ids →
      getPlayer (ids.foldl (feedOne f) st).1 qid = getPlayer st.1 qid := by
  induction ids with
  | nil =>
    intro st qid h
    rfl
  | cons a t ih =>
    intro st qid h
    have h1 : a ≠ qid := fun hh => h (hh ▸ List.mem_cons_self a t)
    have h3 : qid ∉ t := fun hh => h (List.mem_cons_of_mem a hh)
    rw [List.foldl_cons, ih (feedOne f st a) qid h3, feedOne_other f st a qid h1]

theorem foldl_feed_self (f : Nat → ℚ) (ids : List String) :
    ∀ (st : GameState × Nat) (pid : String) (p : Player), ids.Nodup →
      pid ∈ ids → getPlayer st.1 pid = some p →
      ∃ q, getPlayer (ids.foldl (feedOne f) st).1 pid = some q ∧
        ((p.alive = false ∧ q = p) ∨
         (p.alive = true ∧
           (q = { p with snake := p.snake.dropLast } ∨
            q = { p with score := p.score + 10 }))) := by
  induction ids with
  | nil =>
    intro st pid p hnd hmem hp
    cases hmem
  | cons a t ih =>
    intro st pid p hnd hmem hp
    rw [List.foldl_cons]
    have hnd2 := List.nodup_cons.mp hnd
    rcases List.mem_cons.mp hmem with rfl | hmem2
    · obtain ⟨q, hq, hrel⟩ := feedOne_self f st pid p hp
      refine ⟨q, ?_, hrel⟩
      rw [foldl_feed_other f t _ pid hnd2.1]
      exact hq
    · have hane : a ≠ pid := fun hh => hnd2.1 (hh ▸ hmem2)
      have hp2 : getPlayer (feedOne f st a).1 pid = some p := by
        rw [feedOne_other f st a pid hane]
        exact hp
      exact ih (feedOne f st a) pid p hnd2.2 hmem2 hp2

theorem foldl_feed_ids (f : Nat → ℚ) (ids : List String) :
    ∀ st : GameState × Nat,
      (ids.foldl (feedOne f) st).1.players.map Player.id =
        st.1.players.map Player.id := by
  induction ids with
  | nil =>
    intro st
    rfl
  | cons a t ih =>
    intro st
    rw [List.foldl_cons, ih (feedOne f st a), feedOne_ids]

theorem foldl_feed_meta (f : Nat → ℚ) (ids : List String) :
    ∀ st : GameState × Nat,
      (ids.foldl (feedOne f) st).1.gameStarted = st.1.gameStarted ∧
      (ids.foldl (feedOne f) st).1.gameOver = st.1.gameOver ∧
      (ids.foldl (feedOne f) st).1.winner = st.1.winner := by
  induction ids with
  | nil =>
    intro st
    exact ⟨rfl, rfl, rfl⟩
  | cons a t ih =>
    intro st
    have h1 := ih (feedOne f st a)
    have h2 := feedOne_meta f st a
    rw [List.foldl_cons]
    exact ⟨h1.1.trans h2.1, h1.2.1.trans h2.2.1, h1.2.2.trans h2.2.2⟩

theorem checkFoodCollision_spec (f : Nat → ℚ) (gs : GameState) (i : Nat)
    (p : Player) (hnd : (gs.players.map Player.id).Nodup)
    (hmem : p ∈ gs.players) :
    ∃ q, getPlayer (checkFoodCollision f gs i).1 p.id = some q ∧
      ((p.alive = false ∧ q = p) ∨
       (p.alive = true ∧
         (q = { p with snake := p.snake.dropLast } ∨
          q = { p with score := p.score + 10 }))) := by
  unfold checkFoodCollision
  exact foldl_feed_self f (gs.players.map Player.id) (gs, i) p.id p hnd
    (List.mem_map_of_mem Player.id hmem)
    (findKey_of_mem_nodup Player.id gs.players p hnd hmem)

theorem checkFoodCollision_ids (f : Nat → ℚ) (gs : GameState) (i : Nat) :
    (checkFoodCollision f gs i).1.players.map Player.id =
      gs.players.map Player.id := by
  unfold checkFoodCollision
  exact foldl_feed_ids f (gs.players.map Player.id) (gs, i)

theorem checkFoodCollision_meta (f : Nat → ℚ) (gs : GameState) (i : Nat) :
    (checkFoodCollision f gs i).1.gameStarted = gs.gameStarted ∧
    (checkFoodCollision f gs i).1.gameOver = gs.gameOver ∧
    (checkFoodCollision f gs i).1.winner = gs.winner := by
  unfold checkFoodCollision
  exact foldl_feed_meta f (gs.players.map Player.id) (gs, i)

theorem movePhase_ids (gs : GameState) :
    (movePhase gs).players.map Player.id = gs.players.map Player.id := by
  unfold movePhase
  refine map_key_of Player.id _ (fun q => ?_) gs.players
  by_cases h : q.alive = true
  · rw [if_pos h]
    rfl
  · rw [if_neg h]

theorem checkCollisions_ids (gs : GameState) :
    (checkCollisions gs).players.map Player.id = gs.players.map Player.id := by
  unfold checkCollisions
  exact map_key_of Player.id _ (fun q => collideOne_id _ q) gs.players

theorem tick_players (f : Nat → ℚ) (gs : GameState) (i : Nat) :
    (tick f gs i).1.players =
      (checkFoodCollision f (checkCollisions (movePhase gs)) i).1.players := by
  simp only [tick]
  split
  · rfl
  · rfl

theorem tick_index (f : Nat → ℚ) (gs : GameState) (i : Nat) :
    (tick f gs i).2 =
      (checkFoodCollision f (checkCollisions (movePhase gs)) i).2 := by
  simp only [tick]
  split
  · rfl
  · rfl

end FoldLemmas

section TickLemmas

theorem tick_win (f : Nat → ℚ) (gs : GameState) (i : Nat)
    (h : ((tick f gs i).1.players.filter (fun p => p.alive)).length ≤ 1) :
    (tick f gs i).1.gameOver = true ∧
    (tick f gs i).1.gameStarted = false ∧
    (∀ q, (tick f gs i).1.players.filter (fun p => p.alive) = [q] →
      (tick f gs i).1.winner = some q.id) ∧
    ((tick f gs i).1.players.filter (fun p => p.alive) = [] →
      (tick f gs i).1.winner = gs.winner) := by
  have hpl := tick_players f gs i
  have hcond : (((checkFoodCollision f (checkCollisions (movePhase gs)) i).1.players.filter
      (fun p => p.alive)).length ≤ 1) := by
    rw [hpl] at h
    exact h
  refine ⟨?_, ?_, ?_, ?_⟩
  · simp only [tick]
    rw [if_pos hcond]
  · simp only [tick]
    rw [if_pos hcond]
  · intro q hq
    rw [hpl] at hq
    simp only [tick]
    rw [hq]
    have h1 : ([q] : List Player).length ≤ 1 := by simp
    rw [if_pos h1]
  · intro hq
    rw [hpl] at hq
    simp only [tick]
    rw [hq]
    have h1 : ([] : List Player).length ≤ 1 := by simp
    rw [if_pos h1]
    have hm := checkFoodCollision_meta f (checkCollisions (movePhase gs)) i
    exact hm.2.2

theorem tick_flags (f : Nat → ℚ) (gs : GameState) (i : Nat) :
    ((tick f gs i).1.gameStarted = gs.gameStarted ∧
     (tick f gs i).1.gameOver = gs.gameOver) ∨
    ((tick f gs i).1.gameStarted = false ∧ (tick f gs i).1.gameOver = true) := by
  by_cases hcond : ((checkFoodCollision f (checkCollisions (movePhase gs)) i).1.players.filter
      (fun p => p.alive)).length ≤ 1
  · right
    constructor
    · simp only [tick]
      rw [if_pos hcond]
    · simp only [tick]
      rw [if_pos hcond]
  · left
    have hm := checkFoodCollision_meta f (checkCollisions (movePhase gs)) i
    constructor
    · simp only [tick]
      rw [if_neg hcond]
      exact hm.1
    · simp only [tick]
      rw [if_neg hcond]
      exact hm.2.1

end TickLemmas

section ClaimC2

/-- C2: `checkCollisions` marks a player that was alive at entry dead exactly
when its head (first matching rule) left the board [0,30)x[0,20), hit one of
its own body segments excluding the head, or hit a segment of another player
that was alive at entry to the pass (so a player killed earlier in the same
pass can still be collided into); a player matching no rule stays alive,
players already dead are untouched, and snakes and scores never change. -/
theorem checkCollisions_rule_spec (gs : GameState)
    (hnd : (gs.players.map Player.id).Nodup)
    (p : Player) (hmem : p ∈ gs.players) (hsn : p.snake ≠ []) :
    ∃ q, getPlayer (checkCollisions gs) p.id = some q ∧
      q.id = p.id ∧ q.snake = p.snake ∧ q.score = p.score ∧
      (p.alive = false → q = p) ∧
      (p.alive = true →
        (q.alive = true ↔
          (0 ≤ (p.snake.headD ⟨0, 0⟩).x ∧ (p.snake.headD ⟨0, 0⟩).x < 30 ∧
           0 ≤ (p.snake.headD ⟨0, 0⟩).y ∧ (p.snake.headD ⟨0, 0⟩).y < 20) ∧
          (p.snake.headD ⟨0, 0⟩) ∉ p.snake.tail ∧
          ¬∃ r, r ∈ gs.players ∧ r.alive = true ∧ r.id ≠ p.id ∧
            (p.snake.headD ⟨0, 0⟩) ∈ r.snake)) := by
  have hfind : getPlayer gs p.id = some p :=
    findKey_of_mem_nodup Player.id gs.players p hnd hmem
  have hcc := getPlayer_checkCollisions gs p.id
  rw [hfind] at hcc
  refine ⟨collideOne (gs.players.filter (fun x => x.alive)) p, hcc,
    collideOne_id _ p, collideOne_snake _ p, collideOne_score _ p, ?_, ?_⟩
  · intro hdead
    exact collideOne_of_not_alive _ p hdead
  · intro halive
    rw [collideOne_alive_iff _ p halive]
    have hwall : hitsWall (p.snake.headD ⟨0, 0⟩) = false ↔
        (0 ≤ (p.snake.headD ⟨0, 0⟩).x ∧ (p.snake.headD ⟨0, 0⟩).x < 30 ∧
         0 ≤ (p.snake.headD ⟨0, 0⟩).y ∧ (p.snake.headD ⟨0, 0⟩).y < 20) := by
      simp only [hitsWall, BOARD_WIDTH, BOARD_HEIGHT, Bool.or_eq_false_iff,
        decide_eq_false_iff_not, not_lt, not_le]
      omega
    have hself : hitsSelf p (p.snake.headD ⟨0, 0⟩) = false ↔
        (p.snake.headD ⟨0, 0⟩) ∉ p.snake.tail := by
      unfold hitsSelf
      rw [List.any_eq_false]
      constructor
      · intro h hc
        exact h _ hc (by simp)
      · intro h seg hs
        simp only [decide_eq_true_eq]
        intro he
        exact h (he ▸ hs)
    have hother : hitsOther (gs.players.filter (fun x => x.alive)) p
        (p.snake.headD ⟨0, 0⟩) = false ↔
        ¬∃ r, r ∈ gs.players ∧ r.alive = true ∧ r.id ≠ p.id ∧
          (p.snake.headD ⟨0, 0⟩) ∈ r.snake := by
      constructor
      · intro h
        rintro ⟨r, hrmem, hral, hrne, hrsn⟩
        have hrf : r ∈ gs.players.filter (fun x => x.alive) :=
          List.mem_filter.mpr ⟨hrmem, hral⟩
        have htrue : hitsOther (gs.players.filter (fun x => x.alive)) p
            (p.snake.headD ⟨0, 0⟩) = true := by
          unfold hitsOther
          refine List.any_eq_true.mpr ⟨r, hrf, Bool.and_eq_true_iff.mpr ⟨?_, ?_⟩⟩
          · simp only [Bool.not_eq_true', beq_eq_false_iff_ne, ne_eq]
            exact hrne
          · exact List.any_eq_true.mpr ⟨_, hrsn, by simp⟩
        rw [h] at htrue
        cases htrue
      · intro h
        rw [Bool.eq_false_iff]
        intro htrue
        unfold hitsOther at htrue
        obtain ⟨r, hrf, hb⟩ := List.any_eq_true.mp htrue
        have hb2 := Bool.and_eq_true_iff.mp hb
        obtain ⟨seg, hsegmem, hsegeq⟩ := List.any_eq_true.mp hb2.2
        have hrid : r.id ≠ p.id := by
          have := hb2.1
          simp only [Bool.not_eq_true', beq_eq_false_iff_ne, ne_eq] at this
          exact this
        have hf := List.mem_filter.mp hrf
        refine h ⟨r, hf.1, hf.2, hrid, ?_⟩
        have : seg = p.snake.headD ⟨0, 0⟩ := by simpa using hsegeq
        exact this ▸ hsegmem
    exact and_congr hwall (and_congr hself hother)

/-- Witness for C2 at a concrete two-player state in which A's head sits on a
segment of B. -/
theorem checkCollisions_rule_spec_witness :
    (gsC2.players.map Player.id).Nodup ∧ pA2 ∈ gsC2.players ∧ pA2.snake ≠ [] ∧
    (∃ q, getPlayer (checkCollisions gsC2) pA2.id = some q ∧
      q.id = pA2.id ∧ q.snake = pA2.snake ∧ q.score = pA2.score ∧
      (pA2.alive = false → q = pA2) ∧
      (pA2.alive = true →
        (q.alive = true ↔
          (0 ≤ (pA2.snake.headD ⟨0, 0⟩).x ∧ (pA2.snake.headD ⟨0, 0⟩).x < 30 ∧
           0 ≤ (pA2.snake.headD ⟨0, 0⟩).y ∧ (pA2.snake.headD ⟨0, 0⟩).y < 20) ∧
          (pA2.snake.headD ⟨0, 0⟩) ∉ pA2.snake.tail ∧
          ¬∃ r, r ∈ gsC2.players ∧ r.alive = true ∧ r.id ≠ pA2.id ∧
            (pA2.snake.headD ⟨0, 0⟩) ∈ r.snake))) :=
  ⟨by decide, by decide, by decide,
    checkCollisions_rule_spec gsC2 (by decide) pA2 (by decide) (by decide)⟩

end ClaimC2

section ClaimC3

/-- C3: in a started, not-over game, a player still alive after one tick
keeps its snake length (and score) unless it just ate, in which case the
length grew by one (and the score by ten): `moveSnake` prepends a head and
`checkFoodCollision` pops the tail exactly when no food was eaten. -/
theorem tick_alive_length (f : Nat → ℚ) (gs : GameState) (i : Nat)
    (hnd : (gs.players.map Player.id).Nodup)
    (hstarted : gs.gameStarted = true) (hover : gs.gameOver = false)
    (p : Player) (hmem : p ∈ gs.players) (hal : p.alive = true)
    (q : Player) (hq : getPlayer (tick f gs i).1 p.id = some q)
    (hqa : q.alive = true) :
    (q.snake.length = p.snake.length ∧ q.score = p.score) ∨
    (q.snake.length = p.snake.length + 1 ∧ q.score = p.score + 10) := by
  have hfind : getPlayer gs p.id = some p :=
    findKey_of_mem_nodup Player.id gs.players p hnd hmem
  have h1 : getPlayer (movePhase gs) p.id = some (moveSnake p) := by
    rw [getPlayer_movePhase, hfind]
    simp [hal]
  have h2 : getPlayer (checkCollisions (movePhase gs)) p.id =
      some (collideOne ((movePhase gs).players.filter (fun x => x.alive))
        (moveSnake p)) := by
    rw [getPlayer_checkCollisions, h1]
    rfl
  have hnd2 : ((checkCollisions (movePhase gs)).players.map Player.id).Nodup := by
    rw [checkCollisions_ids, movePhase_ids]
    exact hnd
  have hmem2 := getPlayer_mem _ _ _ h2
  have hid2 : (collideOne ((movePhase gs).players.filter (fun x => x.alive))
      (moveSnake p)).id = p.id := by
    rw [collideOne_id]
    rfl
  obtain ⟨q2, hq2, hrel⟩ := checkFoodCollision_spec f
    (checkCollisions (movePhase gs)) i _ hnd2 hmem2
  rw [hid2] at hq2
  have hq2b : getPlayer (tick f gs i).1 p.id = some q2 := by
    unfold getPlayer
    rw [tick_players]
    exact hq2
  rw [hq2b] at hq
  injection hq with hqq
  subst hqq
  have hsnake2 : (collideOne ((movePhase gs).players.filter (fun x => x.alive))
      (moveSnake p)).snake = nextHead p :: p.snake := by
    rw [collideOne_snake]
    rfl
  have hscore2 : (collideOne ((movePhase gs).players.filter (fun x => x.alive))
      (moveSnake p)).score = p.score := by
    rw [collideOne_score]
    rfl
  rcases hrel with ⟨hdead, rfl⟩ | ⟨halive2, hcase⟩
  · rw [hdead] at hqa
    cases hqa
  · rcases hcase with rfl | rfl
    · left
      constructor
      · show ((collideOne _ (moveSnake p)).snake.dropLast).length = p.snake.length
        rw [hsnake2, List.length_dropLast, List.length_cons]
        omega
      · exact hscore2
    · right
      constructor
      · show (collideOne _ (moveSnake p)).snake.length = p.snake.length + 1
        rw [hsnake2, List.length_cons]
      · show (collideOne _ (moveSnake p)).score + 10 = p.score + 10
        rw [hscore2]

/-- Witness for C3 at a concrete two-player state in which A survives the
tick without eating: its length stays 1. -/
theorem tick_alive_length_witness :
    (gsC3.players.map Player.id).Nodup ∧ gsC3.gameStarted = true ∧
    gsC3.gameOver = false ∧ pA3 ∈ gsC3.players ∧ pA3.alive = true ∧
    getPlayer (tick zeroStream gsC3 0).1 pA3.id = some qA3 ∧ qA3.alive = true ∧
    ((qA3.snake.length = pA3.snake.length ∧ qA3.score = pA3.score) ∨
     (qA3.snake.length = pA3.snake.length + 1 ∧ qA3.score = pA3.score + 10)) :=
  ⟨by decide, by decide, by decide, by decide, by decide, by decide, by decide,
    tick_alive_length zeroStream gsC3 0 (by decide) (by decide) (by decide)
      pA3 (by decide) (by decide) qA3 (by decide) (by decide)⟩

end ClaimC3

section ClaimC10

/-- C10: a player alive at the start of a tick that is killed by
`checkCollisions` during it ends the tick with its snake exactly one segment
longer and its score unchanged: `moveSnake` prepends a head and
`checkFoodCollision` skips dead players, so the tail is never popped. -/
theorem tick_death_length (f : Nat → ℚ) (gs : GameState) (i : Nat)
    (hnd : (gs.players.map Player.id).Nodup)
    (p : Player) (hmem : p ∈ gs.players) (hal : p.alive = true)
    (q : Player) (hq : getPlayer (tick f gs i).1 p.id = some q)
    (hqa : q.alive = false) :
    q.snake.length = p.snake.length + 1 ∧ q.score = p.score := by
  have hfind : getPlayer gs p.id = some p :=
    findKey_of_mem_nodup Player.id gs.players p hnd hmem
  have h1 : getPlayer (movePhase gs) p.id = some (moveSnake p) := by
    rw [getPlayer_movePhase, hfind]
    simp [hal]
  have h2 : getPlayer (checkCollisions (movePhase gs)) p.id =
      some (collideOne ((movePhase gs).players.filter (fun x => x.alive))
        (moveSnake p)) := by
    rw [getPlayer_checkCollisions, h1]
    rfl
  have hnd2 : ((checkCollisions (movePhase gs)).players.map Player.id).Nodup := by
    rw [checkCollisions_ids, movePhase_ids]
    exact hnd
  have hmem2 := getPlayer_mem _ _ _ h2
  have hid2 : (collideOne ((movePhase gs).players.filter (fun x => x.alive))
      (moveSnake p)).id = p.id := by
    rw [collideOne_id]
    rfl
  obtain ⟨q2, hq2, hrel⟩ := checkFoodCollision_spec f
    (checkCollisions (movePhase gs)) i _ hnd2 hmem2
  rw [hid2] at hq2
  have hq2b : getPlayer (tick f gs i).1 p.id = some q2 := by
    unfold getPlayer
    rw [tick_players]
    exact hq2
  rw [hq2b] at hq
  injection hq with hqq
  subst hqq
  have hsnake2 : (collideOne ((movePhase gs).players.filter (fun x => x.alive))
      (moveSnake p)).snake = nextHead p :: p.snake := by
    rw [collideOne_snake]
    rfl
  have hscore2 : (collideOne ((movePhase gs).players.filter (fun x => x.alive))
      (moveSnake p)).score = p.score := by
    rw [collideOne_score]
    rfl
  rcases hrel with ⟨hdead, rfl⟩ | ⟨halive2, hcase⟩
  · constructor
    · rw [hsnake2, List.length_cons]
    · exact hscore2
  · exfalso
    rcases hcase with rfl | rfl
    · rw [show ({ collideOne ((movePhase gs).players.filter (fun x => x.alive))
          (moveSnake p) with
          snake := (collideOne ((movePhase gs).players.filter (fun x => x.alive))
            (moveSnake p)).snake.dropLast } : Player).alive =
          (collideOne ((movePhase gs).players.filter (fun x => x.alive))
            (moveSnake p)).alive from rfl] at hqa
      rw [halive2] at hqa
      cases hqa
    · rw [show ({ collideOne ((movePhase gs).players.filter (fun x => x.alive))
          (moveSnake p) with
          score := (collideOne ((movePhase gs).players.filter (fun x => x.alive))
            (moveSnake p)).score + 10 } : Player).alive =
          (collideOne ((movePhase gs).players.filter (fun x => x.alive))
            (moveSnake p)).alive from rfl] at hqa
      rw [halive2] at hqa
      cases hqa

/-- Witness for C10 at a concrete state in which A drives into the left wall:
its snake grows from 1 to 2 segments on the death tick and its score stays 0. -/
theorem tick_death_length_witness :
    (gsC10.players.map Player.id).Nodup ∧ pA10 ∈ gsC10.players ∧
    pA10.alive = true ∧
    getPlayer (tick zeroStream gsC10 0).1 pA10.id = some qA10 ∧
    qA10.alive = false ∧
    (qA10.snake.length = pA10.snake.length + 1 ∧ qA10.score = pA10.score) :=
  ⟨by decide, by decide, by decide, by decide, by decide,
    tick_death_length zeroStream gsC10 0 (by decide) pA10 (by decide)
      (by decide) qA10 (by decide) (by decide)⟩

end ClaimC10

section ClaimC6

theorem sampleAt_bounds (f : Nat → ℚ) (i : Nat) (hf : ∀ n, 0 ≤ f n ∧ f n < 1) :
    0 ≤ (sampleAt f i).x ∧ (sampleAt f i).x < 30 ∧
    0 ≤ (sampleAt f i).y ∧ (sampleAt f i).y < 20 := by
  refine ⟨?_, ?_, ?_, ?_⟩
  · exact Int.le_floor.mpr (by simpa using mul_nonneg (hf i).1 (by norm_num : (0:ℚ) ≤ 30))
  · refine Int.floor_lt.mpr ?_
    have h := (hf i).2
    have : f i * 30 < 1 * 30 := by
      exact mul_lt_mul_of_pos_right h (by norm_num)
    simpa using this
  · exact Int.le_floor.mpr
      (by simpa using mul_nonneg (hf (i + 1)).1 (by norm_num : (0:ℚ) ≤ 20))
  · refine Int.floor_lt.mpr ?_
    have h := (hf (i + 1)).2
    have : f (i + 1) * 20 < 1 * 20 := by
      exact mul_lt_mul_of_pos_right h (by norm_num)
    simpa using this

theorem generateFoodLoop_spec (f : Nat → ℚ) (gs : GameState)
    (hf : ∀ n, 0 ≤ f n ∧ f n < 1) :
    ∀ (k i attempts : Nat), 100 - attempts = k → attempts < 100 →
      (generateFoodLoop f gs i attempts).1 =
        sampleAt f ((generateFoodLoop f gs i attempts).2 - 2) ∧
      (0 ≤ (generateFoodLoop f gs i attempts).1.x ∧
       (generateFoodLoop f gs i attempts).1.x < 30 ∧
       0 ≤ (generateFoodLoop f gs i attempts).1.y ∧
       (generateFoodLoop f gs i attempts).1.y < 20) ∧
      i + 2 ≤ (generateFoodLoop f gs i attempts).2 ∧
      (generateFoodLoop f gs i attempts).2 ≤ i + 2 * (100 - attempts) ∧
      ((generateFoodLoop f gs i attempts).2 < i + 2 * (100 - attempts) →
        isPositionOccupied (generateFoodLoop f gs i attempts).1 gs = false) := by
  intro k
  induction k using Nat.strong_induction_on with
  | _ k ih =>
    intro i attempts hk hlt
    rw [generateFoodLoop]
    by_cases h : attempts + 1 < 100 ∧ isPositionOccupied (sampleAt f i) gs = true
    · rw [dif_pos h]
      have hrec := ih (k - 1) (by omega) (i + 2) (attempts + 1) (by omega) h.1
      refine ⟨hrec.1, hrec.2.1, ?_, ?_, ?_⟩
      · have := hrec.2.2.1
        omega
      · have := hrec.2.2.2.1
        omega
      · intro hlt2
        refine hrec.2.2.2.2 ?_
        have := hrec.2.2.2.1
        omega
    · rw [dif_neg h]
      have hbd := sampleAt_bounds f i hf
      refine ⟨?_, hbd, Nat.le_refl _, by omega, ?_⟩
      · have : i + 2 - 2 = i := by omega
        rw [this]
      · intro hlt2
        have hsm : attempts + 1 < 100 := by omega
        by_cases hocc : isPositionOccupied (sampleAt f i) gs = true
        · exact absurd ⟨hsm, hocc⟩ h
        · simpa using hocc

/-- C6: for every randomness stream with samples in [0,1), `generateFood`
returns integer coordinates inside [0,30)x[0,20); the returned position is
always the last sample drawn; at most 100 attempts (two stream entries each)
are consumed; and whenever the loop stopped before exhausting its 100
attempts, the returned position collides with no existing food item and no
snake segment.  On exhaustion the (possibly colliding) last sample is
returned rather than failing. -/
theorem generateFood_spec (f : Nat → ℚ) (gs : GameState) (i : Nat)
    (hf : ∀ n, 0 ≤ f n ∧ f n < 1) :
    (0 ≤ (generateFood f gs i).1.x ∧ (generateFood f gs i).1.x < 30 ∧
     0 ≤ (generateFood f gs i).1.y ∧ (generateFood f gs i).1.y < 20) ∧
    (generateFood f gs i).1 = sampleAt f ((generateFood f gs i).2 - 2) ∧
    i + 2 ≤ (generateFood f gs i).2 ∧ (generateFood f gs i).2 ≤ i + 200 ∧
    ((generateFood f gs i).2 < i + 200 →
      isPositionOccupied (generateFood f gs i).1 gs = false) := by
  have h := generateFoodLoop_spec f gs hf 100 i 0 (by omega) (by omega)
  unfold generateFood
  refine ⟨h.2.1, h.1, h.2.2.1, ?_, ?_⟩
  · have := h.2.2.2.1
    omega
  · intro hlt
    refine h.2.2.2.2 ?_
    omega

/-- Witness for C6: a concrete all-zero stream on the empty board. -/
theorem generateFood_spec_witness :
    (∀ n, 0 ≤ zeroStream n ∧ zeroStream n < 1) ∧
    ((0 ≤ (generateFood zeroStream gsC6 0).1.x ∧
      (generateFood zeroStream gsC6 0).1.x < 30 ∧
      0 ≤ (generateFood zeroStream gsC6 0).1.y ∧
      (generateFood zeroStream gsC6 0).1.y < 20) ∧
     (generateFood zeroStream gsC6 0).1 =
       sampleAt zeroStream ((generateFood zeroStream gsC6 0).2 - 2) ∧
     0 + 2 ≤ (generateFood zeroStream gsC6 0).2 ∧
     (generateFood zeroStream gsC6 0).2 ≤ 0 + 200 ∧
     ((generateFood zeroStream gsC6 0).2 < 0 + 200 →
       isPositionOccupied (generateFood zeroStream gsC6 0).1 gsC6 = false)) :=
  ⟨fun n => by norm_num [zeroStream],
    generateFood_spec zeroStream gsC6 0 (fun n => by norm_num [zeroStream])⟩

end ClaimC6

section ClaimC9

theorem opposite_opposite (d : Direction) : opposite (opposite d) = d := by
  cases d <;> rfl

/-- C9: with the requester's room resolved, `change-direction` leaves the
whole server state unchanged when the player is missing or dead, rejects a
direction that is the exact opposite of the player's current one (UP-DOWN,
LEFT-RIGHT), and otherwise sets the player's direction immediately, touching
nothing else. -/
theorem changeDirection_spec (s : ServerState) (conn : String) (d : Direction)
    (rid : String) (room : Room)
    (hrid : currentRoom s conn = some rid)
    (hroom : lookupRoom s.rooms rid = some room) :
    (getPlayer room.gameState conn = none → changeDirection s conn d = s) ∧
    (∀ p, getPlayer room.gameState conn = some p → p.alive = false →
      changeDirection s conn d = s) ∧
    (∀ p, getPlayer room.gameState conn = some p → p.alive = true →
      ((d = opposite p.direction → changeDirection s conn d = s) ∧
       (d ≠ opposite p.direction →
         changeDirection s conn d = directionUpdated s rid room conn p d))) := by
  refine ⟨?_, ?_, ?_⟩
  · intro hnone
    simp only [changeDirection, hrid, hroom, hnone]
  · intro p hp hdead
    simp only [changeDirection, hrid, hroom, hp]
    rw [if_neg (by simp [hdead])]
  · intro p hp hal
    constructor
    · intro hd
      have hcond : opposite d = p.direction := by
        rw [hd, opposite_opposite]
      simp only [changeDirection, hrid, hroom, hp]
      rw [if_pos hal, if_neg (not_ne_iff.mpr hcond)]
    · intro hd
      have hcond : opposite d ≠ p.direction := by
        intro hc
        refine hd ?_
        rw [← hc, opposite_opposite]
      simp only [changeDirection, hrid, hroom, hp]
      rw [if_pos hal, if_pos hcond]
      rfl

/-- Witness for C9 at a concrete state: player A, alive, heading RIGHT. -/
theorem changeDirection_spec_witness :
    currentRoom sC9 connA = some ridR ∧
    lookupRoom sC9.rooms ridR = some roomC5 ∧
    ((getPlayer roomC5.gameState connA = none →
        changeDirection sC9 connA Direction.UP = sC9) ∧
     (∀ p, getPlayer roomC5.gameState connA = some p → p.alive = false →
        changeDirection sC9 connA Direction.UP = sC9) ∧
     (∀ p, getPlayer roomC5.gameState connA = some p → p.alive = true →
        ((Direction.UP = opposite p.direction →
           changeDirection sC9 connA Direction.UP = sC9) ∧
         (Direction.UP ≠ opposite p.direction →
           changeDirection sC9 connA Direction.UP =
             directionUpdated sC9 ridR roomC5 connA p Direction.UP)))) :=
  ⟨by decide, by decide,
    changeDirection_spec sC9 connA Direction.UP ridR roomC5 (by decide) (by decide)⟩

end ClaimC9

section ClaimC8

/-- C8: a join-room request with valid inputs for an existing room that
already has 4 of its 4 allowed members, from a connection that is not one of
them, emits the room-full error privately to the requester and leaves the
entire server state (membership and GameState included) unchanged. -/
theorem joinRoom_full_spec (f : Nat → ℚ) (s : ServerState)
    (conn rid name : String) (i : Nat) (room : Room)
    (hrid : rid ≠ "") (hname : name ≠ "")
    (hroom : lookupRoom s.rooms rid = some room)
    (hmax : room.maxPlayers = 4) (hfull : room.players.length = 4)
    (hmem : conn ∉ room.players) :
    joinRoom1 f s conn rid name i = (s, [OutMsg.errorTo conn msgRoomFull], i) := by
  have h2 := findKey_eq_some Room.id s.rooms rid room hroom
  have hany : s.rooms.any (fun r => r.id == rid) = true :=
    List.any_eq_true.mpr ⟨room, h2.1, by simp [h2.2]⟩
  have hval : ¬(rid = "" ∨ name = "") := by
    rintro (h | h)
    · exact hrid h
    · exact hname h
  have hens : ensureRoom s.rooms rid = s.rooms := by
    unfold ensureRoom
    rw [if_pos hany]
  unfold joinRoom1
  rw [if_neg hval]
  simp only [hens]
  show (match lookupRoom s.rooms rid with
    | none => ({ s with rooms := s.rooms }, ([] : List OutMsg), i)
    | some room =>
      if conn ∈ room.players then
        ({ s with rooms := s.rooms },
         [OutMsg.playerJoined conn, OutMsg.gameStateTo rid], i)
      else if room.maxPlayers ≤ room.players.length then
        ({ s with rooms := s.rooms }, [OutMsg.errorTo conn msgRoomFull], i)
      else
        admitPlayer f { s with rooms := s.rooms } conn rid name room i) =
    (s, [OutMsg.errorTo conn msgRoomFull], i)
  rw [hroom]
  show (if conn ∈ room.players then
      ({ s with rooms := s.rooms },
       [OutMsg.playerJoined conn, OutMsg.gameStateTo rid], i)
    else if room.maxPlayers ≤ room.players.length then
      ({ s with rooms := s.rooms }, [OutMsg.errorTo conn msgRoomFull], i)
    else
      admitPlayer f { s with rooms := s.rooms } conn rid name room i) =
    (s, [OutMsg.errorTo conn msgRoomFull], i)
  rw [if_neg hmem, if_pos (by rw [hmax, hfull])]

/-- Witness for C8: a fifth connection E asking to join the full room. -/
theorem joinRoom_full_spec_witness :
    ridR ≠ "" ∧ nameEve ≠ "" ∧
    lookupRoom sC8.rooms ridR = some roomC8 ∧
    roomC8.maxPlayers = 4 ∧ roomC8.players.length = 4 ∧
    connE ∉ roomC8.players ∧
    joinRoom1 zeroStream sC8 connE ridR nameEve 0 =
      (sC8, [OutMsg.errorTo connE msgRoomFull], 0) :=
  ⟨by decide, by decide, by decide, by decide, by decide, by decide,
    joinRoom_full_spec zeroStream sC8 connE ridR nameEve 0 roomC8 (by decide)
      (by decide) (by decide) (by decide) (by decide) (by decide)⟩

end ClaimC8

section ClaimC5

theorem lookup_setRoom_self (rl : List Room) (rid : String) (room1 : Room)
    (hk : room1.id = rid) :
    lookupRoom (setRoom rl rid room1) rid =
      (lookupRoom rl rid).map (fun _ => room1) := by
  unfold lookupRoom setRoom
  exact findKey_update_self Room.id rl rid room1 hk

theorem lookup_setRoom_ne (rl : List Room) (rid rid2 : String) (room1 : Room)
    (hk : room1.id = rid) (hne : rid ≠ rid2) :
    lookupRoom (setRoom rl rid room1) rid2 = lookupRoom rl rid2 := by
  unfold lookupRoom setRoom
  exact findKey_update_ne Room.id rl rid rid2 room1 hk hne

theorem seedFood_players (f : Nat → ℚ) :
    ∀ (n : Nat) (gs : GameState) (i : Nat),
      (seedFood f gs i n).1.players = gs.players := by
  intro n
  induction n with
  | zero =>
    intro gs i
    rfl
  | succ m ih =>
    intro gs i
    rw [seedFood]
    exact ih _ _

theorem seedFood_meta (f : Nat → ℚ) :
    ∀ (n : Nat) (gs : GameState) (i : Nat),
      (seedFood f gs i n).1.gameStarted = gs.gameStarted ∧
      (seedFood f gs i n).1.gameOver = gs.gameOver ∧
      (seedFood f gs i n).1.winner = gs.winner := by
  intro n
  induction n with
  | zero =>
    intro gs i
    exact ⟨rfl, rfl, rfl⟩
  | succ m ih =>
    intro gs i
    rw [seedFood]
    exact ih _ _

theorem seedFood_food_length (f : Nat → ℚ) :
    ∀ (n : Nat) (gs : GameState) (i : Nat),
      (seedFood f gs i n).1.food.length = gs.food.length + n := by
  intro n
  induction n with
  | zero =>
    intro gs i
    rfl
  | succ m ih =>
    intro gs i
    rw [seedFood]
    have := ih { gs with food :=
      gs.food ++ [(generateFood f gs i).1] } (generateFood f gs i).2
    rw [this]
    simp only [List.length_append, List.length_cons, List.length_nil]
    omega

theorem resetStartState_players (f : Nat → ℚ) (gs : GameState) (i : Nat) :
    (resetStartState f gs i).1.players =
      gs.players.enum.map (fun e : Nat × Player => resetPlayer e.1 e.2) := by
  unfold resetStartState
  rw [seedFood_players]

theorem resetStartState_flags (f : Nat → ℚ) (gs : GameState) (i : Nat) :
    (resetStartState f gs i).1.gameStarted = true ∧
    (resetStartState f gs i).1.gameOver = false ∧
    (resetStartState f gs i).1.winner = none := by
  unfold resetStartState
  refine ⟨?_, ?_, ?_⟩
  · rw [(seedFood_meta f 3 _ i).1]
  · rw [(seedFood_meta f 3 _ i).2.1]
  · rw [(seedFood_meta f 3 _ i).2.2]

theorem resetStartState_food (f : Nat → ℚ) (gs : GameState) (i : Nat) :
    (resetStartState f gs i).1.food.length = 3 := by
  unfold resetStartState
  rw [seedFood_food_length]
  rfl

/-- C5: with at least two players present, `start-game` rebuilds the room's
GameState: every player is reset to score 0, direction RIGHT, alive, and the
single canonical start position assigned by its index in the current
iteration order modulo 4; the food list is replaced by exactly 3 fresh
items; the flags become started-and-not-over with no winner; and exactly one
interval remains registered for the room (`startGameLoop` cancels any
existing one first). -/
theorem startGame_spec (f : Nat → ℚ) (s : ServerState) (conn : String)
    (i : Nat) (rid : String) (room : Room)
    (hrid : currentRoom s conn = some rid)
    (hroom : lookupRoom s.rooms rid = some room)
    (hn : 2 ≤ room.gameState.players.length)
    (htim : s.timers.count rid ≤ 1) :
    lookupRoom (startGame f s conn i).1.rooms rid =
      some { room with gameState := (resetStartState f room.gameState i).1 } ∧
    (resetStartState f room.gameState i).1.gameStarted = true ∧
    (resetStartState f room.gameState i).1.gameOver = false ∧
    (resetStartState f room.gameState i).1.winner = none ∧
    (resetStartState f room.gameState i).1.food.length = 3 ∧
    (resetStartState f room.gameState i).1.players.length =
      room.gameState.players.length ∧
    (∀ (idx : Nat) (p : Player),
      (resetStartState f room.gameState i).1.players.get? idx = some p →
      p.score = 0 ∧ p.direction = Direction.RIGHT ∧ p.alive = true ∧
      p.snake = [startPositions.getD (idx % 4) ⟨0, 0⟩]) ∧
    (startGame f s conn i).1.timers.count rid = 1 := by
  have hidr : room.id = rid := (findKey_eq_some Room.id s.rooms rid room hroom).2
  have hstate : (startGame f s conn i).1 =
      { s with
        rooms := setRoom s.rooms rid { room with gameState := (resetStartState f room.gameState i).1 },
        timers := rid :: s.timers.erase rid } := by
    simp only [startGame, hrid, hroom]
    rw [if_neg (by omega)]
  refine ⟨?_, (resetStartState_flags f room.gameState i).1,
    (resetStartState_flags f room.gameState i).2.1,
    (resetStartState_flags f room.gameState i).2.2,
    resetStartState_food f room.gameState i, ?_, ?_, ?_⟩
  · rw [hstate]
    show lookupRoom (setRoom s.rooms rid { room with gameState := (resetStartState f room.gameState i).1 }) rid = _
    rw [lookup_setRoom_self s.rooms rid { room with gameState := (resetStartState f room.gameState i).1 } hidr, hroom]
    rfl
  · rw [resetStartState_players]
    rw [List.length_map, List.enum_length]
  · intro idx p hp
    rw [resetStartState_players] at hp
    rw [List.get?_map] at hp
    rw [show List.enum room.gameState.players =
      List.enumFrom 0 room.gameState.players from rfl] at hp
    rw [get?_enumFrom] at hp
    cases horig : room.gameState.players.get? idx with
    | none =>
      rw [horig] at hp
      cases hp
    | some orig =>
      rw [horig] at hp
      simp only [Option.map_some'] at hp
      have hzero : 0 + idx = idx := by omega
      rw [hzero] at hp
      injection hp with hp2
      subst hp2
      refine ⟨rfl, rfl, rfl, ?_⟩
      show [startPositions.getD (idx % startPositions.length) ⟨0, 0⟩] = _
      rw [show startPositions.length = 4 from rfl]
  · rw [hstate]
    show (rid :: s.timers.erase rid).count rid = 1
    rw [List.count_cons_self]
    have herase := List.count_erase_self rid s.timers
    omega

/-- Witness for C5: starting the two-player room `r`. -/
theorem startGame_spec_witness :
    currentRoom sC5 connA = some ridR ∧
    lookupRoom sC5.rooms ridR = some roomC5 ∧
    2 ≤ roomC5.gameState.players.length ∧ sC5.timers.count ridR ≤ 1 ∧
    (lookupRoom (startGame zeroStream sC5 connA 0).1.rooms ridR =
      some { roomC5 with
        gameState := (resetStartState zeroStream roomC5.gameState 0).1 } ∧
     (resetStartState zeroStream roomC5.gameState 0).1.gameStarted = true ∧
     (resetStartState zeroStream roomC5.gameState 0).1.gameOver = false ∧
     (resetStartState zeroStream roomC5.gameState 0).1.winner = none ∧
     (resetStartState zeroStream roomC5.gameState 0).1.food.length = 3 ∧
     (resetStartState zeroStream roomC5.gameState 0).1.players.length =
       roomC5.gameState.players.length ∧
     (∀ (idx : Nat) (p : Player),
       (resetStartState zeroStream roomC5.gameState 0).1.players.get? idx = some p →
       p.score = 0 ∧ p.direction = Direction.RIGHT ∧ p.alive = true ∧
       p.snake = [startPositions.getD (idx % 4) ⟨0, 0⟩]) ∧
     (startGame zeroStream sC5 connA 0).1.timers.count ridR = 1) :=
  ⟨by decide, by decide, by decide, by decide,
    startGame_spec zeroStream sC5 connA 0 ridR roomC5 (by decide) (by decide)
      (by decide) (by decide)⟩

end ClaimC5

section ClaimC1

/-- C1: in a started, not-over room whose tick leaves at most one player
alive, the tick sets gameOver and clears gameStarted, the room keeps the
ticked GameState, the winner becomes the sole survivor's id when exactly one
player remains and stays unset when none do, and the room's interval is
cancelled. -/
theorem updateGame_win_spec (f : Nat → ℚ) (s : ServerState) (rid : String)
    (i : Nat) (room : Room)
    (hroom : lookupRoom s.rooms rid = some room)
    (hstart : room.gameState.gameStarted = true)
    (hover : room.gameState.gameOver = false)
    (hwin : room.gameState.winner = none)
    (htim : s.timers.count rid ≤ 1)
    (hle : ((tick f room.gameState i).1.players.filter (fun p => p.alive)).length ≤ 1) :
    (tick f room.gameState i).1.gameOver = true ∧
    (tick f room.gameState i).1.gameStarted = false ∧
    lookupRoom (updateGame f s rid i).1.rooms rid =
      some { room with gameState := (tick f room.gameState i).1 } ∧
    (∀ q, (tick f room.gameState i).1.players.filter (fun p => p.alive) = [q] →
      (tick f room.gameState i).1.winner = some q.id) ∧
    ((tick f room.gameState i).1.players.filter (fun p => p.alive) = [] →
      (tick f room.gameState i).1.winner = none) ∧
    rid ∉ (updateGame f s rid i).1.timers := by
  have hth := tick_win f room.gameState i hle
  have hidr : room.id = rid := (findKey_eq_some Room.id s.rooms rid room hroom).2
  have hguard : (room.gameState.gameStarted && !room.gameState.gameOver) = true := by
    rw [hstart, hover]
    rfl
  have hstate : (updateGame f s rid i).1 =
      { s with
        rooms := setRoom s.rooms rid { room with gameState := (tick f room.gameState i).1 },
        timers := s.timers.erase rid } := by
    simp only [updateGame, hroom]
    rw [if_pos hguard, if_pos hle]
  refine ⟨hth.1, hth.2.1, ?_, hth.2.2.1, ?_, ?_⟩
  · rw [hstate]
    show lookupRoom (setRoom s.rooms rid { room with gameState := (tick f room.gameState i).1 }) rid = _
    rw [lookup_setRoom_self s.rooms rid { room with gameState := (tick f room.gameState i).1 } hidr, hroom]
    rfl
  · intro hq
    rw [hth.2.2.2 hq, hwin]
  · rw [hstate]
    show rid ∉ s.timers.erase rid
    intro hcon
    have hcnt := List.count_erase_self rid s.timers
    have hz : (s.timers.erase rid).count rid = 0 := by omega
    exact (List.count_eq_zero.mp hz) hcon

/-- Witness for C1: in room `r` player A drives into the wall while B
survives, so the tick ends the game with B as winner and cancels the timer. -/
theorem updateGame_win_spec_witness :
    lookupRoom sC1.rooms ridR = some roomC1 ∧
    roomC1.gameState.gameStarted = true ∧ roomC1.gameState.gameOver = false ∧
    roomC1.gameState.winner = none ∧ sC1.timers.count ridR ≤ 1 ∧
    ((tick zeroStream roomC1.gameState 0).1.players.filter (fun p => p.alive)).length ≤ 1 ∧
    ((tick zeroStream roomC1.gameState 0).1.gameOver = true ∧
     (tick zeroStream roomC1.gameState 0).1.gameStarted = false ∧
     lookupRoom (updateGame zeroStream sC1 ridR 0).1.rooms ridR =
       some { roomC1 with gameState := (tick zeroStream roomC1.gameState 0).1 } ∧
     (∀ q, (tick zeroStream roomC1.gameState 0).1.players.filter (fun p => p.alive) = [q] →
       (tick zeroStream roomC1.gameState 0).1.winner = some q.id) ∧
     ((tick zeroStream roomC1.gameState 0).1.players.filter (fun p => p.alive) = [] →
       (tick zeroStream roomC1.gameState 0).1.winner = none) ∧
     ridR ∉ (updateGame zeroStream sC1 ridR 0).1.timers) :=
  ⟨by decide, by decide, by decide, by decide, by decide, by decide,
    updateGame_win_spec zeroStream sC1 ridR 0 roomC1 (by decide) (by decide)
      (by decide) (by decide) (by decide) (by decide)⟩

end ClaimC1

section ClaimC4

/-- Counterexample for C4: connection A is already the sole member of room
`r`.  The first revision's join-room handler answers the re-join without
touching the registry; the second revision, which lacks the membership
check, appends a duplicate membership entry and re-creates the player, so
the resulting registries differ. -/
theorem joinRoom_revisions_differ :
    (joinRoom1 zeroStream sC4 connA ridR nameEve 0).1 ≠
      (joinRoom2 zeroStream sC4 connA ridR nameEve 0).1 := by
  decide

/-- C4 (amended): the two revisions' join-room handlers produce the same
server state (and emissions and stream cursor) whenever the inputs are
non-empty and the connection is not already a member of the target room;
the remaining inbound handlers of the two revisions differ only in logging
and private error emissions.  They disagree exactly on a join-room from an
existing member (see the counterexample) and on empty inputs, which only
revision 1 rejects. -/
theorem joinRoom_revisions_agree (f : Nat → ℚ) (s : ServerState)
    (conn rid name : String) (i : Nat)
    (hrid : rid ≠ "") (hname : name ≠ "")
    (hmem : ∀ room2, lookupRoom s.rooms rid = some room2 →
      conn ∉ room2.players) :
    joinRoom1 f s conn rid name i = joinRoom2 f s conn rid name i := by
  have hval : ¬(rid = "" ∨ name = "") := by
    rintro (h | h)
    · exact hrid h
    · exact hname h
  simp only [joinRoom1, joinRoom2]
  rw [if_neg hval]
  cases hfind : lookupRoom (ensureRoom s.rooms rid) rid with
  | none => rfl
  | some room2 =>
    have hmem2 : conn ∉ room2.players := by
      by_cases hany : s.rooms.any (fun r => r.id == rid) = true
      · have hens : ensureRoom s.rooms rid = s.rooms := by
          unfold ensureRoom
          rw [if_pos hany]
        rw [hens] at hfind
        exact hmem room2 hfind
      · have hnone : findKey Room.id rid s.rooms = none := by
          refine findKey_eq_none Room.id s.rooms rid (fun x hx hkx => ?_)
          exact hany (List.any_eq_true.mpr ⟨x, hx, by simp [hkx]⟩)
        have hens : ensureRoom s.rooms rid = s.rooms ++
            [{ id := rid, players := [], maxPlayers := 4,
               gameState := createInitialGameState rid }] := by
          unfold ensureRoom
          rw [if_neg hany]
        rw [hens] at hfind
        unfold lookupRoom at hfind
        rw [findKey_append, hnone] at hfind
        have hfind2 : findKey Room.id rid
            [{ id := rid, players := [], maxPlayers := 4,
               gameState := createInitialGameState rid }] = some room2 := hfind
        rw [findKey, if_pos (by simp)] at hfind2
        injection hfind2 with hroom2
        rw [← hroom2]
        intro hcon
        cases hcon
    simp [hmem2]

/-- Witness for the amended C4 on a fresh server: the room does not exist
yet, so both revisions create it and admit the player identically. -/
theorem joinRoom_revisions_agree_witness :
    ridR ≠ "" ∧ nameEve ≠ "" ∧
    (∀ room2, lookupRoom initialServer.rooms ridR = some room2 →
      connA ∉ room2.players) ∧
    joinRoom1 zeroStream initialServer connA ridR nameEve 0 =
      joinRoom2 zeroStream initialServer connA ridR nameEve 0 :=
  ⟨by decide, by decide,
    (by
      intro room2 h
      rw [show lookupRoom initialServer.rooms ridR = none from rfl] at h
      cases h),
    joinRoom_revisions_agree zeroStream initialServer connA ridR nameEve 0
      (by decide) (by decide)
      (by
        intro room2 h
        rw [show lookupRoom initialServer.rooms ridR = none from rfl] at h
        cases h)⟩

end ClaimC4

section ClaimC7

theorem roomsOk_all (rl : List Room) :
    roomsOk rl = true ↔
      ∀ r ∈ rl, (!(r.gameState.gameStarted && r.gameState.gameOver)) = true := by
  unfold roomsOk
  exact List.all_eq_true

theorem mem_setRoom (rl : List Room) (rid : String) (room1 r2 : Room)
    (h : r2 ∈ setRoom rl rid room1) : r2 = room1 ∨ r2 ∈ rl := by
  unfold setRoom at h
  obtain ⟨x, hx, hval⟩ := List.mem_map.mp h
  by_cases hc : (x.id == rid) = true
  · rw [if_pos hc] at hval
    exact Or.inl hval.symm
  · rw [if_neg hc] at hval
    exact Or.inr (hval ▸ hx)

theorem roomsOk_setRoom (rl : List Room) (rid : String) (room1 : Room)
    (h : roomsOk rl = true)
    (h1 : (!(room1.gameState.gameStarted && room1.gameState.gameOver)) = true) :
    roomsOk (setRoom rl rid room1) = true := by
  rw [roomsOk_all]
  intro r2 hr2
  rcases mem_setRoom rl rid room1 r2 hr2 with rfl | hmem
  · exact h1
  · exact (roomsOk_all rl).mp h r2 hmem

theorem roomsOk_filter (rl : List Room) (p : Room → Bool)
    (h : roomsOk rl = true) : roomsOk (rl.filter p) = true := by
  rw [roomsOk_all]
  intro r hr
  exact (roomsOk_all rl).mp h r (List.mem_filter.mp hr).1

theorem roomsOk_lookup (rl : List Room) (rid : String) (room : Room)
    (h : roomsOk rl = true) (hr : lookupRoom rl rid = some room) :
    (!(room.gameState.gameStarted && room.gameState.gameOver)) = true := by
  have hm := (findKey_eq_some Room.id rl rid room hr).1
  exact (roomsOk_all rl).mp h room hm

theorem roomsOk_ensureRoom (rl : List Room) (rid : String)
    (h : roomsOk rl = true) : roomsOk (ensureRoom rl rid) = true := by
  unfold ensureRoom
  by_cases hany : rl.any (fun r => r.id == rid) = true
  · rw [if_pos hany]
    exact h
  · rw [if_neg hany]
    unfold roomsOk
    rw [List.all_append]
    unfold roomsOk at h
    rw [h]
    rfl

theorem seedIf_meta (f : Nat → ℚ) (gsx : GameState) (ix : Nat) :
    (if gsx.food.length == 0 then seedFood f gsx ix 3 else (gsx, ix)).1.gameStarted =
      gsx.gameStarted ∧
    (if gsx.food.length == 0 then seedFood f gsx ix 3 else (gsx, ix)).1.gameOver =
      gsx.gameOver := by
  by_cases hc : (gsx.food.length == 0) = true
  · rw [if_pos hc]
    exact ⟨(seedFood_meta f 3 gsx ix).1, (seedFood_meta f 3 gsx ix).2.1⟩
  · rw [if_neg hc]
    exact ⟨rfl, rfl⟩

theorem seedIf_ok (f : Nat → ℚ) (gsx : GameState) (ix : Nat)
    (hok : (!(gsx.gameStarted && gsx.gameOver)) = true) :
    (!((if gsx.food.length == 0 then seedFood f gsx ix 3 else (gsx, ix)).1.gameStarted &&
       (if gsx.food.length == 0 then seedFood f gsx ix 3 else (gsx, ix)).1.gameOver)) = true := by
  rw [(seedIf_meta f gsx ix).1, (seedIf_meta f gsx ix).2]
  exact hok

theorem admitPlayer_flagsOk (f : Nat → ℚ) (s : ServerState)
    (conn rid name : String) (room : Room) (i : Nat)
    (h : roomsOk s.rooms = true)
    (hok : (!(room.gameState.gameStarted && room.gameState.gameOver)) = true) :
    roomsOk (admitPlayer f s conn rid name room i).1.rooms = true := by
  simp only [admitPlayer]
  apply roomsOk_setRoom _ _ _ h
  exact seedIf_ok f
    { room.gameState with players := setPlayerEntry room.gameState.players (createPlayer conn name ((room.players ++ [conn]).length - 1)) }
    i hok

theorem flagsOk_joinRoom1 (f : Nat → ℚ) (s : ServerState)
    (conn rid name : String) (i : Nat) (h : flagsOk s = true) :
    flagsOk (joinRoom1 f s conn rid name i).1 = true := by
  unfold flagsOk at *
  simp only [joinRoom1]
  split
  · exact h
  · split
    · exact roomsOk_ensureRoom s.rooms rid h
    · rename_i room2 hfind
      split
      · exact roomsOk_ensureRoom s.rooms rid h
      · split
        · exact roomsOk_ensureRoom s.rooms rid h
        · exact admitPlayer_flagsOk f _ conn rid name room2 i
            (roomsOk_ensureRoom s.rooms rid h)
            (roomsOk_lookup (ensureRoom s.rooms rid) rid room2
              (roomsOk_ensureRoom s.rooms rid h) hfind)

theorem flagsOk_startGame (f : Nat → ℚ) (s : ServerState) (conn : String)
    (i : Nat) (h : flagsOk s = true) :
    flagsOk (startGame f s conn i).1 = true := by
  unfold flagsOk at *
  simp only [startGame]
  split
  · exact h
  · split
    · exact h
    · rename_i room hfind
      split
      · exact h
      · apply roomsOk_setRoom _ _ _ h
        rw [show ({ room with gameState := (resetStartState f room.gameState i).1 } :
            Room).gameState = (resetStartState f room.gameState i).1 from rfl]
        rw [(resetStartState_flags f room.gameState i).1,
          (resetStartState_flags f room.gameState i).2.1]
        rfl

theorem flagsOk_changeDirection (s : ServerState) (conn : String)
    (d : Direction) (h : flagsOk s = true) :
    flagsOk (changeDirection s conn d) = true := by
  unfold flagsOk at *
  simp only [changeDirection]
  split
  · exact h
  · split
    · exact h
    · rename_i rid hcur xscr room hfind
      split
      · exact h
      · rename_i p hp
        split
        · split
          · apply roomsOk_setRoom _ _ _ h
            exact roomsOk_lookup s.rooms rid room h hfind
          · exact h
        · exact h

theorem removeFromRoom_flagsOk (s : ServerState) (conn rid : String)
    (room : Room) (h : roomsOk s.rooms = true)
    (hok : (!(room.gameState.gameStarted && room.gameState.gameOver)) = true) :
    roomsOk (removeFromRoom s conn rid room).rooms = true := by
  simp only [removeFromRoom]
  split
  · exact roomsOk_filter s.rooms _ h
  · exact roomsOk_setRoom _ _ _ h hok

theorem flagsOk_leaveRoom (s : ServerState) (conn : String)
    (h : flagsOk s = true) : flagsOk (leaveRoom s conn) = true := by
  unfold flagsOk at *
  simp only [leaveRoom]
  split
  · exact h
  · split
    · exact h
    · rename_i rid hcur xscr room hfind
      exact removeFromRoom_flagsOk s conn rid room h
        (roomsOk_lookup s.rooms rid room h hfind)

theorem flagsOk_disconnect (s : ServerState) (conn : String)
    (h : flagsOk s = true) : flagsOk (disconnect s conn) = true := by
  unfold flagsOk at *
  simp only [disconnect]
  split
  · exact h
  · split
    · exact h
    · rename_i rid hcur xscr room hfind
      exact removeFromRoom_flagsOk s conn rid room h
        (roomsOk_lookup s.rooms rid room h hfind)

theorem flagsOk_updateGame (f : Nat → ℚ) (s : ServerState) (rid : String)
    (i : Nat) (h : flagsOk s = true) :
    flagsOk (updateGame f s rid i).1 = true := by
  unfold flagsOk at *
  simp only [updateGame]
  split
  · exact h
  · rename_i room hfind
    split
    · apply roomsOk_setRoom _ _ _ h
      rcases tick_flags f room.gameState i with ⟨h1, h2⟩ | ⟨h1, h2⟩
      · rw [show ({ room with gameState := (tick f room.gameState i).1 } :
            Room).gameState = (tick f room.gameState i).1 from rfl]
        rw [h1, h2]
        exact roomsOk_lookup s.rooms rid room h hfind
      · rw [show ({ room with gameState := (tick f room.gameState i).1 } :
            Room).gameState = (tick f room.gameState i).1 from rfl]
        rw [h1, h2]
        rfl
    · exact h

/-- C7: in every server state reachable from the empty registry by any
sequence of join-room, start-game, change-direction, leave-room, disconnect
and interval firings, no room ever has gameStarted and gameOver true at the
same time. -/
theorem reachable_flagsOk (s : ServerState) (h : Reachable s) :
    flagsOk s = true := by
  induction h with
  | init => rfl
  | join f conn rid name i s hs ih => exact flagsOk_joinRoom1 f s conn rid name i ih
  | start f conn i s hs ih => exact flagsOk_startGame f s conn i ih
  | dir conn d s hs ih => exact flagsOk_changeDirection s conn d ih
  | leave conn s hs ih => exact flagsOk_leaveRoom s conn ih
  | disc conn s hs ih => exact flagsOk_disconnect s conn ih
  | step f rid i s hs ih => exact flagsOk_updateGame f s rid i ih

/-- Witness for C7: the state reached by one join on the empty registry
satisfies the invariant. -/
theorem reachable_flagsOk_witness :
    Reachable (joinRoom1 zeroStream initialServer connA ridR nameEve 0).1 ∧
    flagsOk (joinRoom1 zeroStream initialServer connA ridR nameEve 0).1 = true :=
  ⟨Reachable.join zeroStream connA ridR nameEve 0 initialServer Reachable.init,
    reachable_flagsOk _
      (Reachable.join zeroStream connA ridR nameEve 0 initialServer Reachable.init)⟩

end ClaimC7
